import Mathlib

/-!
# The Three Jewels (`src/adventure.c`): a shallow embedding

The C program keeps its whole game in global variables and talks to the player
through `printf`.  Here

* a C string (`char name[50]`, `const char *raw_input`, ...) is the list of the
  characters that stand before its terminating NUL (`CStr`); no function here
  looks for NUL, so a statement over all lists covers all C strings;
* a C array is a list whose length is the declared bound; `rd`/`wr` are the
  indexed read and write, meaningful for indices inside the bound (outside of
  it the C program has no defined behaviour), and a loop over a whole array is
  a recursion over the list;
* `int` fields are `Int` (no arithmetic in the program comes near overflow);
* the globals are gathered in `State`, and every function that prints returns
  the list of its `printf` calls (`Out`: format string and `%s` arguments) in
  order, next to the new state.
-/

namespace Adventure

/-- Contents of a NUL-terminated C string. -/
abbrev CStr := List Char

/-- One call of `printf`: the format string and the strings substituted for `%s`. -/
structure Out where
  fmt : String
  args : List CStr
deriving DecidableEq, Repr

/-- Shorthand for a recorded `printf` call. -/
def pr (fmt : String) (args : List CStr) : Out := ⟨fmt, args⟩

/-! ## Maximum sizes -/

def MAX_ROOMS : Nat := 10
def MAX_ITEMS : Nat := 20
def MAX_INVENTORY : Nat := 10
def MAX_INPUT : Nat := 100

/-! ## Data model -/

/-- The C `Item` struct. `location`: -1 = in player inventory, 0+ = room number,
-2 = does not exist. -/
structure Item where
  name : CStr
  description : CStr
  location : Int
  takeable : Bool
  taken : Bool
deriving DecidableEq, Repr, Inhabited

/-- The C `Room` struct. An exit of -1 means no exit. -/
structure Room where
  name : CStr
  description : CStr
  npc_text : CStr
  answer : CStr
  answer_correct : Bool
  riddle : Bool
  north : Int
  south : Int
  east : Int
  west : Int
  cave : Int
  visited : Bool
deriving DecidableEq, Repr, Inhabited

/-- The global game state of the C program. -/
structure State where
  rooms : List Room
  items : List Item
  current_room : Int
  inventory : List Int
  inventory_count : Int
  game_over : Bool
  waiting_for_riddle : Bool
deriving DecidableEq, Repr

/-- Array read `a[i]`. -/
def rd {α : Type} [Inhabited α] (a : List α) (i : Int) : α := a.getD i.toNat default

/-- Array write `a[i] = v`. -/
def wr {α : Type} (a : List α) (i : Int) (v : α) : List α := a.set i.toNat v

/-- The zero-initialised globals the program starts from (static storage), with the
explicit initialisers `current_room = 0`, `inventory_count = 0`, `game_over = false`,
`waiting_for_riddle = false`. -/
def globals : State where
  rooms := List.replicate MAX_ROOMS ⟨[], [], [], [], false, false, 0, 0, 0, 0, 0, false⟩
  items := List.replicate MAX_ITEMS ⟨[], [], 0, false, false⟩
  current_room := 0
  inventory := List.replicate MAX_INVENTORY 0
  inventory_count := 0
  game_over := false
  waiting_for_riddle := false

/-! ## count_jewels_taken -/

/-- The loop of `count_jewels_taken` over the item array. -/
def count_taken : List Item → Int
  | [] => 0
  | it :: rest => (if it.taken then 1 else 0) + count_taken rest

/-- `count_jewels_taken`: the number of items with `taken` set. -/
def count_jewels_taken (s : State) : Int := count_taken s.items

/-! ## init_game -/

/-- Body of the first loop of `init_game`: exits to -1, flags cleared, `answer` and
`npc_text` emptied (name and description are not touched). -/
def reset_room (r : Room) : Room :=
  { r with north := -1, south := -1, east := -1, west := -1, cave := -1,
           visited := false, riddle := false, answer_correct := false,
           answer := [], npc_text := [] }

/-- Body of the item loop of `init_game`. -/
def reset_item (it : Item) : Item :=
  { it with location := -2, takeable := false, taken := false }

def room0_description : CStr :=
  ("You stand in a bog, knee deep in foul smelling water. Strange noises echo from " ++
   "the undergrowth around you, and the smell of death cloys at your nose. " ++
   "You can see strange lights glowing in the distance. You also think you see " ++
   "something glinting in the thick reeds at the bottom of an odd looking tree. " ++
   "To the north, you can barely make out a high and imposing mountain top rising " ++
   "above the sickly trees. To the east, you think you can feel a sense of darkness " ++
   "and danger emanating.").toList

def room1_description : CStr :=
  ("You stare up at a sheer cliff face, the wind blowing at your back. You feel as " ++
   "if you can almost see a wailing face carved in to the stone of the mountain peak, " ++
   "high above you. You see what looks like a cave mouth a few yards away at the base " ++
   "of the mountain. A little ways off and up from the cave, you also see what looks " ++
   "like a skeleton from a previous explorer. To the south you can see a dreadful " ++
   "smelling thicket of trees.").toList

def room2_description : CStr :=
  ("You shiver as the tall trees cast an eerie shadow over the scene around you. You " ++
   "feel as if the darkness itself is watching you. By the flicker of your torch light, " ++
   "you can make out the faint shapes of what look like some kind of stone circle in the " ++
   "distance. Beneath your feet you can feel something akin to moss on the forest floor. " ++
   "To the west, the ground gets more wet and an overwhelming stench wafts towards you.").toList

def room3_description : CStr :=
  ("You are in a dark and cramped space that is barely worthy to be called a cave. " ++
   "You see a strange red glow coming from a crevice in the cave wall.").toList

/-- The rooms after `init_game`. -/
def init_rooms (rooms : List Room) : List Room :=
  let r := rooms.map reset_room
  /- Room 0: Swamp of Dread -/
  let r := wr r 0 { rd r 0 with name := "Swamp of Dread".toList,
                                description := room0_description, north := 1, east := 2 }
  /- Room 1: Peak of Despair -/
  let r := wr r 1 { rd r 1 with name := "Peak of Despair".toList,
                                description := room1_description,
                                answer := "43".toList, south := 0, riddle := true }
  /- Room 2: Dark Forest -/
  let r := wr r 2 { rd r 2 with name := "Dark Forest".toList,
                                description := room2_description, west := 0 }
  /- Room 3: Cave -/
  let r := wr r 3 { rd r 3 with name := "Cave".toList,
                                description := room3_description, south := 1 }
  r

/-- The items after `init_game`. -/
def init_items (items : List Item) : List Item :=
  let t := items.map reset_item
  /- Item 0: Green Jewel (Swamp) -/
  let t := wr t 0 { rd t 0 with name := "jewel".toList,
                                description := "You see a dazzling jewel glowing green with a strange power.".toList,
                                location := 0, takeable := true }
  /- Item 1: Purple Jewel (Forest) -/
  let t := wr t 1 { rd t 1 with name := "jewel".toList,
                                description := "You see a dazzling jewel glowing purple with a strange power.".toList,
                                location := 2, takeable := true }
  /- Item 2: Red Jewel (Cave) -/
  let t := wr t 2 { rd t 2 with name := "jewel".toList,
                                description := "You see a dazzling jewel glowing red with a strange power.".toList,
                                location := 3, takeable := true }
  t

/-- `init_game`: rewrites the room and item tables; the other globals are not assigned. -/
def init_game (s : State) : State :=
  { s with rooms := init_rooms s.rooms, items := init_items s.items }

/-! ## check_riddle, print_room, look -/

def riddle_prompt : List Out :=
  [pr "\nSuddenly, a ghostly figure floats up from the mountain climber's corpse. In a hoarse voice, they say to you,\n" [],
   pr "'What you seek lies near, but you must show great knowledge to be judged worthy.'\n" [],
   pr "'What is four score and six shared evenly between us?'\n" [],
   pr "\nType your answer:\n" []]

def riddle_rebuke : List Out :=
  [pr "\nSuddenly, a ghostly figure floats up from the mountain climber's corpse.\n" [],
   pr "The ghost screams in anger! 'You are wasting my time! You do not have all that you need!'\n" []]

/-- `check_riddle`. -/
def check_riddle (s : State) : State × List Out :=
  let room := rd s.rooms s.current_room
  let jewel_count := count_jewels_taken s
  if room.riddle && jewel_count == 2 then
    ({ s with waiting_for_riddle := true }, riddle_prompt)
  else if room.riddle then
    (s, riddle_rebuke)
  else
    (s, [])

/-- The loop of `print_room` that lists the items lying in the current room;
the Boolean is `found_items`. -/
def show_items (cur : Int) : List Item → Bool → List Out × Bool
  | [], found => ([], found)
  | it :: rest, found =>
    if it.location = cur then
      let o := (if !found then [pr "\nYou see: " []] else [pr ", " []]) ++ [pr "a %s" [it.name]]
      (o ++ (show_items cur rest true).1, (show_items cur rest true).2)
    else
      show_items cur rest found

/-- The exits line of `print_room`. -/
def show_exits (room : Room) : List Out :=
  [pr "\nExits: " []] ++
  (if room.north ≠ -1 then [pr "north " []] else []) ++
  (if room.south ≠ -1 then [pr "south " []] else []) ++
  (if room.east ≠ -1 then [pr "east " []] else []) ++
  (if room.west ≠ -1 then [pr "west " []] else []) ++
  (if room.cave ≠ -1 then [pr "cave " []] else []) ++
  [pr "\n" []]

/-- `print_room`. -/
def print_room (s : State) : State × List Out :=
  let room := rd s.rooms s.current_room
  let o1 := [pr "\n=== %s ===\n" [room.name], pr "%s\n" [room.description]]
  let items := show_items s.current_room s.items false
  let o2 := items.1 ++ (if items.2 then [pr "\n" []] else [])
  let o3 := if room.npc_text.length > 0 then [pr "\n%s" [room.npc_text]] else []
  let c := check_riddle s
  let s1 := c.1
  let room1 := rd s1.rooms s.current_room
  let o5 := show_exits room1
  ({ s1 with rooms := wr s1.rooms s.current_room { room1 with visited := true } },
   o1 ++ o2 ++ o3 ++ c.2 ++ o5)

/-- `look`. -/
def look (s : State) : State × List Out := print_room s

/-! ## handle_riddle_answer, print_game_over -/

/-- `s[strcspn(s, reject)] = 0`: cut the string at the first character of `reject`. -/
def cut_at (reject : List Char) (s : CStr) : CStr := s.takeWhile (fun c => !(reject.contains c))

def riddle_success : Out :=
  pr "You are a great seeker of knowledge and have proved yourself worthy!! You may proceed to the cave for the path has been opened.\n" []

def riddle_failure : Out :=
  pr "The ghost shakes its head. 'That is not correct. Think harder, adventurer.'\n" []

/-- `handle_riddle_answer`. -/
def handle_riddle_answer (s : State) (answer : CStr) : State × List Out :=
  let room := rd s.rooms s.current_room
  /- Trim newline -/
  let answer := cut_at ['\n'] answer
  if answer = room.answer then
    ({ s with rooms := wr s.rooms s.current_room { room with cave := 3 },
              waiting_for_riddle := false },
     [pr "\n=== %s ===\n" [room.name], pr "%s\n" [room.description], riddle_success])
  else
    ({ s with waiting_for_riddle := false }, [riddle_failure])

def victory : List Out :=
  [pr "\n============================================\n" [],
   pr "Congratulations! You have found all three jewels of decrepidness.\n" [],
   pr "May you age like a slimey short-lived toad.\n" [],
   pr "============================================\n" [],
   pr "\nGame Over. Thanks for playing!\n" []]

/-- `print_game_over`. -/
def print_game_over (s : State) : State × List Out :=
  ({ s with game_over := true }, victory)

/-! ## go -/

/-- The in-place loop `if (c >= 'A' && c <= 'Z') c = c + 32` over a string. -/
def lower_char (c : Char) : Char :=
  if 'A' ≤ c ∧ c ≤ 'Z' then Char.ofNat (c.toNat + 32) else c

def to_lower (s : CStr) : CStr := s.map lower_char

/-- The exit `go` selects for an already lower-cased direction word
(-1 when the word is no direction). -/
def next_room (room : Room) (direction : CStr) : Int :=
  if direction = "cave".toList then room.cave
  else if direction = "north".toList ∨ direction = "n".toList then room.north
  else if direction = "south".toList ∨ direction = "s".toList then room.south
  else if direction = "east".toList ∨ direction = "e".toList then room.east
  else if direction = "west".toList ∨ direction = "w".toList then room.west
  else -1

/-- `go`. -/
def go (s : State) (direction : CStr) : State × List Out :=
  let room := rd s.rooms s.current_room
  let direction := to_lower direction
  let next := next_room room direction
  if next = -1 then
    (s, [pr "You can't go that way.\n" []])
  else
    print_room { s with current_room := next }

/-! ## find_item_in_room, take_item, show_inventory, talk -/

/-- The loop of `find_item_in_room`, `i` being the index of the head of the list. -/
def find_from (cur : Int) (name : CStr) : List Item → Nat → Int
  | [], _ => -1
  | it :: rest, i =>
    if it.location = cur ∧ it.name = name then (i : Int) else find_from cur name rest (i + 1)

/-- `find_item_in_room`. -/
def find_item_in_room (s : State) (name : CStr) : Int :=
  find_from s.current_room name s.items 0

/-- `take_item`. -/
def take_item (s : State) (item_name : CStr) : State × List Out :=
  let item_name := to_lower item_name
  let item_id := find_item_in_room s item_name
  if item_id = -1 then
    (s, [pr "You don't see that here.\n" []])
  else if !(rd s.items item_id).takeable then
    (s, [pr "You can't take that.\n" []])
  else if s.inventory_count ≥ MAX_INVENTORY then
    (s, [pr "Your inventory is full!\n" []])
  else
    let items1 := wr s.items item_id { rd s.items item_id with location := -1 }
    let inventory1 := wr s.inventory s.inventory_count item_id
    let items2 := wr items1 item_id { rd items1 item_id with taken := true }
    ({ s with items := items2, inventory := inventory1,
              inventory_count := s.inventory_count + 1 },
     [pr "You take the %s.\n" [(rd items2 item_id).name]])

/-- The listing loop of `show_inventory` over the first `inventory_count` entries. -/
def show_carried (items : List Item) : List Int → List Out
  | [] => []
  | i :: rest =>
    pr "  - %s: %s\n" [(rd items i).name, (rd items i).description] :: show_carried items rest

/-- `show_inventory`. -/
def show_inventory (s : State) : State × List Out :=
  if s.inventory_count = 0 then
    (s, [pr "Your inventory is empty.\n" []])
  else
    (s, pr "You are carrying:\n" [] :: show_carried s.items (s.inventory.take s.inventory_count.toNat))

/-- `talk`. -/
def talk (s : State) : State × List Out :=
  if (rd s.rooms s.current_room).npc_text.length > 0 then
    (s, [pr "%s" [(rd s.rooms s.current_room).npc_text]])
  else
    (s, [pr "There's no one here to talk to.\n" []])

/-! ## process_input -/

/-- C `isspace` in the "C" locale. -/
def isspace (c : Char) : Bool :=
  c == ' ' || c == '\t' || c == '\n' || c == '\x0b' || c == '\x0c' || c == '\r'

/-- One `%49s` conversion of `sscanf`: skip white space, then read at most `width`
non-space characters. `none` when the input ends before a character is read. -/
def scan_s (width : Nat) (input : CStr) : Option (CStr × CStr) :=
  let i := input.dropWhile isspace
  if i = [] then none
  else
    let tok := (i.takeWhile (fun c => !isspace c)).take width
    some (tok, i.drop tok.length)

/-- `sscanf(input, "%49s %49s", command, argument)` on buffers that were zeroed:
a conversion that fails leaves its buffer (and the later ones) empty. -/
def sscanf2 (input : CStr) : CStr × CStr :=
  match scan_s 49 input with
  | none => ([], [])
  | some (command, rest) =>
    match scan_s 49 (rest.dropWhile isspace) with
    | none => (command, [])
    | some (argument, _) => (command, argument)

/-- The win test `rooms[3].visited && items[2].taken`. -/
def win (s : State) : Bool := (rd s.rooms 3).visited && (rd s.items 2).taken

/-- The win check at the end of both paths of `process_input`. -/
def check_win (r : State × List Out) : State × List Out :=
  if win r.1 then ((print_game_over r.1).1, r.2 ++ (print_game_over r.1).2) else r

/-- The command dispatch of `process_input`. -/
def dispatch (s : State) (command argument : CStr) : State × List Out :=
  if command = "quit".toList then
    ({ s with game_over := true }, [pr "Thanks for playing!\n" []])
  else if command = "look".toList then look s
  else if command = "go".toList then go s argument
  else if command = "take".toList then take_item s argument
  else if command = "inventory".toList ∨ command = "i".toList then show_inventory s
  else if command = "talk".toList then talk s
  else if command = "help".toList then
    (s, [pr "Commands: look, go [direction], take [item], inventory, talk, help, quit\n" []])
  else
    (s, [pr "I don't understand that command. Type 'help' for a list of commands.\n" []])

/-- The local buffer `input` of `process_input` after `strncpy`, the forced
terminator and the cut at the first `\n` or `\r`. -/
def read_input (raw_input : CStr) : CStr :=
  cut_at ['\n', '\r'] (raw_input.take (MAX_INPUT - 1))

/-- `process_input`. -/
def process_input (s : State) (raw_input : CStr) : State × List Out :=
  if s.game_over then (s, [])
  else
    let input := read_input raw_input
    if s.waiting_for_riddle then
      check_win (handle_riddle_answer s input)
    else
      let p := sscanf2 input
      check_win (dispatch s (to_lower p.1) p.2)

/-! ## main -/

def intro : List Out :=
  [pr "=== The Three Jewels ===\n\n" [],
   pr "A despicable thief has stolen the three jewels of the kingdom of Ikan. Although " [],
   pr "they were apprehended later and their hideout thoroughly searched, the jewels were " [],
   pr "not found. Instead, they found notes and maps in the thief's hideout. One map in " [],
   pr "particular showed which areas the thief had hidden each gem.\n\n" [],
   pr "Being unable to send any soldiers, the king asked for someone to step up and take " [],
   pr "the responsibility of searching each of these hiding places for a jewel. You " [],
   pr "volunteered to take up this quest in service to the king.\n\n" [],
   pr "You will start with the Swamp of Dread, where the vines tangle together to hide " [],
   pr "predators. Next, the Dark Forest, where even on the sunniest day one can become " [],
   pr "forever lost in the darkness. Finally, the Peak of Misery, where the mountain " [],
   pr "itself has a downcast face and many climbers have plummeted to their deaths.\n\n" [],
   pr "Type 'help' for a list of commands.\n" []]

/-- The part of `main` before the input loop: `init_game`, the introduction, and the
first `print_room`. -/
def startup : State × List Out :=
  ((print_room (init_game globals)).1, intro ++ (print_room (init_game globals)).2)

/-- Feed a list of lines to `process_input`, one call per line, collecting the output. -/
def run (r : State × List Out) : List CStr → State × List Out
  | [] => r
  | line :: rest =>
    run ((process_input r.1 line).1, r.2 ++ (process_input r.1 line).2) rest

/-- The states the program can be in between two calls of `process_input`. -/
inductive Reachable : State → Prop
  | start : Reachable startup.1
  | step (s : State) (line : CStr) : Reachable s → Reachable (process_input s line).1

/-! ## Auxiliary definitions for the statements -/

/-- The part of a room that no function other than `init_game` writes: everything
except `visited` and `cave`. -/
def static (r : Room) : Room := { r with visited := false, cave := -1 }

/-- The authored room table, `visited` and `cave` masked. -/
def authored_static : List Room := (init_rooms globals.rooms).map static

/-- Facts about the two tables: the item array keeps its size and its `taken` flags agree
with the locations; the rooms are the authored ones up to `visited` and `cave`. -/
structure Tables (rooms : List Room) (items : List Item) : Prop where
  items_len : items.length = MAX_ITEMS
  items_ok : ∀ it ∈ items, (it.taken = true ↔ it.location = -1)
  rooms_static : rooms.map static = authored_static

/-- Facts that hold between two calls of `process_input`. -/
structure Inv (s : State) : Prop where
  tables : Tables s.rooms s.items
  nowin : s.game_over = false → win s = false
  awaiting : s.waiting_for_riddle = true → s.current_room = 1 ∧ count_jewels_taken s = 2

/-- The ten input lines of the walk-through, in order. -/
def walkthrough : List CStr :=
  ["take jewel".toList, "go north".toList, "go south".toList, "go east".toList,
   "take jewel".toList, "go west".toList, "go north".toList, "43".toList,
   "go cave".toList, "take jewel".toList]

/-- The state after startup and the first `k` lines of the walk-through. -/
def after (k : Nat) : State := (run startup (walkthrough.take k)).1

/-- The verbs of the dispatch table of `process_input`. -/
def verbs : List CStr :=
  ["quit".toList, "look".toList, "go".toList, "take".toList, "inventory".toList,
   "i".toList, "talk".toList, "help".toList]

/-- The direction words `go` knows. -/
def directions : List CStr :=
  ["cave".toList, "north".toList, "n".toList, "south".toList, "s".toList,
   "east".toList, "e".toList, "west".toList, "w".toList]

/-- What `take_item` writes into the item it picks up. -/
def carry (it : Item) : Item := { it with location := -1, taken := true }

/-- The item table after `init_game` with the jewels 0, 1, 2 picked up or not. -/
def items_of (t0 t1 t2 : Bool) : List Item :=
  let a := init_items globals.items
  let a := wr a 0 (if t0 then carry (rd a 0) else rd a 0)
  let a := wr a 1 (if t1 then carry (rd a 1) else rd a 1)
  wr a 2 (if t2 then carry (rd a 2) else rd a 2)

/-- Further facts that hold between two calls of `process_input`: the current room is one
of the four authored rooms, the cave exits, the shape of the item table, how room 3, item
2 and the open cave depend on each other, and the inventory. -/
structure World (s : State) : Prop where
  cur_lo : 0 ≤ s.current_room
  cur_hi : s.current_room ≤ 3
  caves : ∀ n : Nat, n < MAX_ROOMS → n ≠ 1 → (rd s.rooms n).cave = -1
  cave1 : (rd s.rooms 1).cave = -1 ∨ (rd s.rooms 1).cave = 3
  items_shape : ∃ t0 t1 t2, s.items = items_of t0 t1 t2
  in3 : s.current_room = 3 → (rd s.rooms 3).visited = true
  vis3 : (rd s.rooms 3).visited = true → (rd s.rooms 1).cave = 3
  took2 : (rd s.items 2).taken = true → (rd s.rooms 3).visited = true
  open01 : (rd s.rooms 1).cave = 3 → (rd s.items 0).taken = true ∧ (rd s.items 1).taken = true
  inv_len : s.inventory.length = MAX_INVENTORY
  count_eq : s.inventory_count = count_jewels_taken s
  carried_nodup : (s.inventory.take s.inventory_count.toNat).Nodup
  carried_iff : ∀ j : Int, j ∈ s.inventory.take s.inventory_count.toNat ↔
    (0 ≤ j ∧ j < MAX_ITEMS ∧ (rd s.items j).taken = true)

/-- All the facts that hold between two calls of `process_input`. -/
structure Sound (s : State) : Prop where
  inv : Inv s
  world : World s
  live : s.waiting_for_riddle = true → s.game_over = false

/-! ## Theorems -/
theorem check_riddle_fst (s : State) :
    (check_riddle s).1 = { s with waiting_for_riddle := s.waiting_for_riddle ||
      ((rd s.rooms s.current_room).riddle && count_jewels_taken s == 2) } := by
  unfold check_riddle
  obtain ⟨rooms, items, cur, inv, cnt, over, w⟩ := s
  dsimp only
  split_ifs with h h2 <;> simp_all

theorem print_room_fst (s : State) :
    (print_room s).1 =
      { s with rooms := wr s.rooms s.current_room { rd s.rooms s.current_room with visited := true },
               waiting_for_riddle := s.waiting_for_riddle ||
                 ((rd s.rooms s.current_room).riddle && count_jewels_taken s == 2) } := by
  simp [print_room, check_riddle_fst]

theorem set_map_same {α β : Type} (f : α → β) (l : List α) (n : Nat) (d a : α)
    (h : f a = f (l.getD n d)) : (l.set n a).map f = l.map f := by
  induction l generalizing n with
  | nil => simp
  | cons x xs ih =>
    cases n with
    | zero => simpa using h
    | succ k => simpa using ih k (by simpa using h)

theorem wr_map_static (l : List Room) (i : Int) (r : Room) (h : static r = static (rd l i)) :
    (wr l i r).map static = l.map static :=
  set_map_same static l i.toNat default r h

theorem static_visited (r : Room) : static { r with visited := true } = static r := rfl

theorem static_cave (r : Room) (c : Int) : static { r with cave := c } = static r := rfl

theorem print_room_snd_eq (s : State) :
    (print_room s).2 =
      [pr "\n=== %s ===\n" [(rd s.rooms s.current_room).name],
       pr "%s\n" [(rd s.rooms s.current_room).description]] ++
      ((show_items s.current_room s.items false).1 ++
        (if (show_items s.current_room s.items false).2 then [pr "\n" []] else [])) ++
      (if (rd s.rooms s.current_room).npc_text.length > 0
        then [pr "\n%s" [(rd s.rooms s.current_room).npc_text]] else []) ++
      (check_riddle s).2 ++ show_exits (rd s.rooms s.current_room) := by
  simp [print_room, check_riddle_fst]

theorem handle_riddle_answer_fst (s : State) (a : CStr) :
    (handle_riddle_answer s a).1 =
      { s with rooms := if cut_at ['\n'] a = (rd s.rooms s.current_room).answer
                        then wr s.rooms s.current_room { rd s.rooms s.current_room with cave := 3 }
                        else s.rooms,
               waiting_for_riddle := false } := by
  unfold handle_riddle_answer
  dsimp only
  split_ifs with h <;> rfl

theorem go_fst (s : State) (d : CStr) :
    (go s d).1 =
      if next_room (rd s.rooms s.current_room) (to_lower d) = -1 then s
      else (print_room { s with current_room := next_room (rd s.rooms s.current_room) (to_lower d) }).1 := by
  unfold go
  dsimp only
  split_ifs with h <;> rfl

theorem find_from_cases (cur : Int) (name : CStr) (l : List Item) (k : Nat) :
    (find_from cur name l k = -1 ∧ ∀ it ∈ l, ¬ (it.location = cur ∧ it.name = name)) ∨
    (∃ j, ∃ h : j < l.length, find_from cur name l k = ((k + j : Nat) : Int) ∧
      (l[j].location = cur ∧ l[j].name = name) ∧
      ∀ j2, ∀ h2 : j2 < l.length, j2 < j →
        ¬ (l[j2].location = cur ∧ l[j2].name = name)) := by
  induction l generalizing k with
  | nil => left; simp [find_from]
  | cons x xs ih =>
    by_cases hx : x.location = cur ∧ x.name = name
    · right
      refine ⟨0, by simp, ?_, ?_, ?_⟩
      · simp [find_from, hx]
      · simpa using hx
      · intro j2 h2 hlt; omega
    · rcases ih (k + 1) with ⟨h1, h2⟩ | ⟨j, hj, h1, h2, h3⟩
      · left
        refine ⟨?_, ?_⟩
        · simp only [find_from, hx, if_false]; exact h1
        · intro it hit
          rcases List.mem_cons.1 hit with rfl | hit
          · exact hx
          · exact h2 it hit
      · right
        refine ⟨j + 1, by simpa using hj, ?_, ?_, ?_⟩
        · simp only [find_from, hx, if_false]; rw [h1]; congr 1; omega
        · simpa using h2
        · intro j2 hj2 hlt
          cases j2 with
          | zero => simpa using hx
          | succ m => simpa using h3 m (by simpa using hj2) (by omega)

theorem find_item_none (s : State) (name : CStr)
    (h : ∀ it ∈ s.items, ¬ (it.location = s.current_room ∧ it.name = name)) :
    find_item_in_room s name = -1 := by
  unfold find_item_in_room
  rcases find_from_cases s.current_room name s.items 0 with ⟨h1, _⟩ | ⟨j, hj, _, h2, _⟩
  · exact h1
  · exact absurd h2 (h _ (List.getElem_mem _))

theorem find_item_lowest (s : State) (name : CStr) (i : Nat) (h : i < s.items.length)
    (hm : s.items[i].location = s.current_room ∧ s.items[i].name = name)
    (hlow : ∀ j, ∀ hj : j < s.items.length, j < i →
      ¬ (s.items[j].location = s.current_room ∧ s.items[j].name = name)) :
    find_item_in_room s name = (i : Int) := by
  unfold find_item_in_room
  rcases find_from_cases s.current_room name s.items 0 with ⟨_, h2⟩ | ⟨j, hj, h1, h2, h3⟩
  · exact absurd hm (h2 _ (List.getElem_mem _))
  · have hji : j = i := by
      rcases Nat.lt_trichotomy j i with hlt | heq | hgt
      · exact absurd h2 (hlow j hj hlt)
      · exact heq
      · exact absurd hm (h3 i h hgt)
    subst hji
    simpa using h1

theorem rd_natCast {α : Type} [Inhabited α] (l : List α) (i : Nat) (h : i < l.length) :
    rd l (i : Int) = l[i] := by
  simp [rd, List.getElem?_eq_getElem h]

theorem rd_wr_natCast {α : Type} [Inhabited α] (l : List α) (i : Nat) (h : i < l.length) (a : α) :
    rd (wr l (i : Int) a) (i : Int) = a := by
  simp [rd, wr, h]

theorem wr_wr {α : Type} (l : List α) (i : Int) (a b : α) : wr (wr l i a) i b = wr l i b := by
  simp [wr]

theorem take_item_found (s : State) (item_name : CStr) (i : Nat) (h : i < s.items.length)
    (hfind : find_item_in_room s (to_lower item_name) = (i : Int)) :
    take_item s item_name =
      if s.items[i].takeable = false then (s, [pr "You can't take that.\n" []])
      else if (MAX_INVENTORY : Int) ≤ s.inventory_count then (s, [pr "Your inventory is full!\n" []])
      else
        ({ s with items := s.items.set i { s.items[i] with location := -1, taken := true },
                  inventory := s.inventory.set s.inventory_count.toNat (i : Int),
                  inventory_count := s.inventory_count + 1 },
         [pr "You take the %s.\n" [s.items[i].name]]) := by
  have hne : ((i : Nat) : Int) ≠ -1 := by omega
  unfold take_item
  simp only [hfind, hne, if_false, wr_wr, rd_wr_natCast s.items i h, rd_natCast s.items i h]
  by_cases ht : s.items[i].takeable = false
  · simp [ht]
  · have ht2 : s.items[i].takeable = true := by simpa using ht
    by_cases hc : (MAX_INVENTORY : Int) ≤ s.inventory_count
    · simp [ht2, hc]
    · simp [ht2, hc, wr, rd_wr_natCast s.items i h]

theorem authored_riddle (n : Nat) :
    (authored_static.getD n (static default)).riddle = true → n = 1 := by
  by_cases hn : n < 10
  · interval_cases n <;> decide
  · have hlen : authored_static.length ≤ n := by
      have : authored_static.length = 10 := by decide
      omega
    rw [List.getD_eq_default _ _ hlen]
    intro h
    exact absurd h (by decide)

theorem rd_static (rooms : List Room) (i : Int) :
    static (rd rooms i) = (rooms.map static).getD i.toNat (static default) := by
  unfold rd
  rw [List.getD_map]

theorem riddle_only_room1 (rooms : List Room) (h : rooms.map static = authored_static) (i : Int)
    (hr : (rd rooms i).riddle = true) : i.toNat = 1 := by
  have h1 : (static (rd rooms i)).riddle = true := hr
  rw [rd_static, h] at h1
  exact authored_riddle _ h1

theorem room1_answer (rooms : List Room) (h : rooms.map static = authored_static) :
    (rd rooms 1).answer = "43".toList ∧ (rd rooms 1).riddle = true := by
  have h1 : static (rd rooms 1) = authored_static.getD 1 (static default) := by
    rw [rd_static, h]; rfl
  have h2 : (static (rd rooms 1)).answer = "43".toList := by rw [h1]; decide
  have h3 : (static (rd rooms 1)).riddle = true := by rw [h1]; decide
  exact ⟨h2, h3⟩

theorem check_win_fst (r : State × List Out) :
    (check_win r).1 = if win r.1 then { r.1 with game_over := true } else r.1 := by
  unfold check_win print_game_over
  split_ifs <;> rfl

theorem items_ok_set (l : List Item) (i : Nat) (h : i < l.length)
    (hl : ∀ it ∈ l, (it.taken = true ↔ it.location = -1)) :
    ∀ it ∈ l.set i { l[i] with location := -1, taken := true },
      (it.taken = true ↔ it.location = -1) := by
  intro it hit
  rcases List.mem_or_eq_of_mem_set hit with h1 | h1
  · exact hl it h1
  · subst h1; simp

theorem tables_print_room (s : State) (h : Tables s.rooms s.items) :
    Tables (print_room s).1.rooms (print_room s).1.items := by
  rw [print_room_fst]
  exact ⟨h.items_len, h.items_ok, by
    dsimp only
    rw [wr_map_static _ _ _ (static_visited _)]; exact h.rooms_static⟩

theorem awaiting_print_room (s : State) (h : Tables s.rooms s.items)
    (hw : s.waiting_for_riddle = false)
    (hp : (print_room s).1.waiting_for_riddle = true) :
    (print_room s).1.current_room = 1 ∧ count_jewels_taken (print_room s).1 = 2 := by
  rw [print_room_fst] at hp ⊢
  simp only [hw, Bool.false_or, Bool.and_eq_true, beq_iff_eq] at hp
  have h1 := riddle_only_room1 s.rooms h.rooms_static s.current_room hp.1
  refine ⟨?_, hp.2⟩
  show s.current_room = 1
  omega

theorem tables_go (s : State) (d : CStr) (h : Tables s.rooms s.items) :
    Tables (go s d).1.rooms (go s d).1.items := by
  rw [go_fst]
  split_ifs
  · exact h
  · exact tables_print_room _ h

theorem awaiting_go (s : State) (d : CStr) (h : Tables s.rooms s.items)
    (hw : s.waiting_for_riddle = false) (hp : (go s d).1.waiting_for_riddle = true) :
    (go s d).1.current_room = 1 ∧ count_jewels_taken (go s d).1 = 2 := by
  rw [go_fst] at hp ⊢
  split_ifs at hp ⊢ with h1
  · rw [hw] at hp; exact absurd hp (by decide)
  · exact awaiting_print_room _ h hw hp

theorem take_item_fst_cases (s : State) (n : CStr) :
    (take_item s n).1 = s ∨
    ∃ i, ∃ h : i < s.items.length,
      (take_item s n).1 =
        { s with items := s.items.set i { s.items[i] with location := -1, taken := true },
                 inventory := s.inventory.set s.inventory_count.toNat (i : Int),
                 inventory_count := s.inventory_count + 1 } := by
  rcases find_from_cases s.current_room (to_lower n) s.items 0 with ⟨h1, _⟩ | ⟨j, hj, h1, _, _⟩
  · left
    unfold take_item
    have : find_item_in_room s (to_lower n) = -1 := h1
    simp [this]
  · have hf : find_item_in_room s (to_lower n) = (j : Int) := by
      unfold find_item_in_room; simpa using h1
    rw [take_item_found s n j hj hf]
    split_ifs
    · left; rfl
    · left; rfl
    · right; exact ⟨j, hj, rfl⟩

theorem tables_take_item (s : State) (n : CStr) (h : Tables s.rooms s.items) :
    Tables (take_item s n).1.rooms (take_item s n).1.items := by
  rcases take_item_fst_cases s n with h1 | ⟨i, hi, h1⟩
  · rw [h1]; exact h
  · rw [h1]
    exact ⟨by simpa using h.items_len, items_ok_set _ _ hi h.items_ok, h.rooms_static⟩

theorem take_item_waiting (s : State) (n : CStr) :
    (take_item s n).1.waiting_for_riddle = s.waiting_for_riddle := by
  rcases take_item_fst_cases s n with h1 | ⟨i, hi, h1⟩ <;> rw [h1]

theorem tables_dispatch (s : State) (c a : CStr) (h : Tables s.rooms s.items) :
    Tables (dispatch s c a).1.rooms (dispatch s c a).1.items := by
  unfold dispatch
  split_ifs
  · exact h
  · exact tables_print_room _ h
  · exact tables_go _ _ h
  · exact tables_take_item _ _ h
  · unfold show_inventory; split_ifs <;> exact h
  · unfold talk; split_ifs <;> exact h
  · exact h
  · exact h

theorem awaiting_dispatch (s : State) (c a : CStr) (h : Tables s.rooms s.items)
    (hw : s.waiting_for_riddle = false) (hp : (dispatch s c a).1.waiting_for_riddle = true) :
    (dispatch s c a).1.current_room = 1 ∧ count_jewels_taken (dispatch s c a).1 = 2 := by
  unfold dispatch at hp ⊢
  split_ifs at hp ⊢
  · rw [show ({ s with game_over := true } : State).waiting_for_riddle = false from hw] at hp
    exact absurd hp (by decide)
  · exact awaiting_print_room _ h hw hp
  · exact awaiting_go _ _ h hw hp
  · rw [take_item_waiting, hw] at hp; exact absurd hp (by decide)
  · unfold show_inventory at hp; split_ifs at hp <;> (rw [hw] at hp; exact absurd hp (by decide))
  · unfold talk at hp; split_ifs at hp <;> (rw [hw] at hp; exact absurd hp (by decide))
  · rw [hw] at hp; exact absurd hp (by decide)
  · rw [hw] at hp; exact absurd hp (by decide)

theorem tables_handle_riddle_answer (s : State) (a : CStr) (h : Tables s.rooms s.items) :
    Tables (handle_riddle_answer s a).1.rooms (handle_riddle_answer s a).1.items := by
  rw [handle_riddle_answer_fst]
  refine ⟨h.items_len, h.items_ok, ?_⟩
  dsimp only
  split_ifs
  · rw [wr_map_static _ _ _ (static_cave _ _)]; exact h.rooms_static
  · exact h.rooms_static

theorem inv_check_win (r : State × List Out) (h : Tables r.1.rooms r.1.items)
    (hw : r.1.waiting_for_riddle = true → r.1.current_room = 1 ∧ count_jewels_taken r.1 = 2) :
    Inv (check_win r).1 := by
  rw [check_win_fst]
  split_ifs with hwin
  · exact ⟨h, fun h0 => absurd h0 (by simp), hw⟩
  · exact ⟨h, fun _ => by simpa using hwin, hw⟩

theorem inv_process_input (s : State) (line : CStr) (h : Inv s) :
    Inv (process_input s line).1 := by
  unfold process_input
  split_ifs with h1 h2
  · exact h
  · refine inv_check_win _ (tables_handle_riddle_answer _ _ h.tables) ?_
    intro hw
    rw [handle_riddle_answer_fst] at hw
    exact absurd hw (by simp)
  · exact inv_check_win _ (tables_dispatch _ _ _ h.tables)
      (awaiting_dispatch _ _ _ h.tables (by simpa using h2))

set_option maxRecDepth 100000 in
theorem inv_startup : Inv startup.1 :=
  ⟨⟨by decide, by decide, by decide⟩, by decide, by decide⟩

theorem inv_of_reachable (s : State) (h : Reachable s) : Inv s := by
  induction h with
  | start => exact inv_startup
  | step s line _ ih => exact inv_process_input s line ih

/-! ## Reachable states of the walk-through -/

theorem reachable_run (r : State × List Out) (lines : List CStr) (h : Reachable r.1) :
    Reachable (run r lines).1 := by
  induction lines generalizing r with
  | nil => exact h
  | cons line rest ih => exact ih _ (Reachable.step _ line h)

theorem reachable_after (k : Nat) : Reachable (after k) :=
  reachable_run startup _ Reachable.start

/-! ## C1 -/

/-- C1. The walk-through of the specification, run on the code from the state after
startup: after the first `go north` the player stands in room 1, gets the rebuke and
no prompt, and no answer is awaited; after the second `go north` the player stands in
room 1 with exactly two items taken, gets the prompt, and the answer is awaited; after
`43` the cave exit of room 1 (absent until then) is room 3 and no answer is awaited;
after `go cave` the player is in room 3 and the session goes on; the final `take jewel`
ends the session with the victory message. -/
theorem walkthrough_outcome :
    ((after 2).current_room = 1 ∧ (after 2).waiting_for_riddle = false ∧
      riddle_rebuke <:+: (process_input (after 1) "go north".toList).2 ∧
      ¬ riddle_prompt <:+: (process_input (after 1) "go north".toList).2) ∧
    ((after 7).current_room = 1 ∧ count_jewels_taken (after 7) = 2 ∧
      (after 7).waiting_for_riddle = true ∧
      riddle_prompt <:+: (process_input (after 6) "go north".toList).2) ∧
    ((rd (after 7).rooms 1).cave = -1 ∧ (rd (after 8).rooms 1).cave = 3 ∧
      (after 8).waiting_for_riddle = false ∧
      riddle_success ∈ (process_input (after 7) "43".toList).2) ∧
    ((after 9).current_room = 3 ∧ (after 9).game_over = false) ∧
    ((after 10).game_over = true ∧
      victory <:+ (process_input (after 9) "take jewel".toList).2) := by
  decide

/-! ## C2 -/

/-- C2 (the code at the failing input). After the riddle of room 1 has been answered
correctly in the walk-through (cave exit open, session not over, two items taken),
describing room 1 asks the riddle again: `look` emits the prompt and sets the
awaiting-answer flag, and so does walking to the cave and back (`go cave`, `go south`). -/
theorem riddle_asked_again_once_answered :
    Reachable (after 8) ∧
    (after 8).current_room = 1 ∧ (rd (after 8).rooms 1).cave = 3 ∧
    (after 8).game_over = false ∧ (after 8).waiting_for_riddle = false ∧
    (process_input (after 8) "look".toList).1.waiting_for_riddle = true ∧
    riddle_prompt <:+: (process_input (after 8) "look".toList).2 ∧
    (process_input (after 9) "go south".toList).1.current_room = 1 ∧
    (process_input (after 9) "go south".toList).1.waiting_for_riddle = true ∧
    riddle_prompt <:+: (process_input (after 9) "go south".toList).2 :=
  ⟨reachable_after 8, by decide⟩

/-! ## C3 -/

theorem takeWhile_take_comm {α : Type} (p : α → Bool) (l : List α) (n : Nat) :
    (l.take n).takeWhile p = (l.takeWhile p).take n := by
  induction l generalizing n with
  | nil => simp
  | cons x xs ih =>
    cases n with
    | zero => simp
    | succ k =>
      by_cases hx : p x = true
      · simp [List.takeWhile_cons, hx, ih]
      · simp [List.takeWhile_cons, hx]

theorem cut_at_cut_at (x : CStr) : cut_at ['\n'] (cut_at ['\n', '\r'] x) = cut_at ['\n', '\r'] x := by
  unfold cut_at
  rw [List.takeWhile_eq_self_iff]
  intro c hc
  have h := List.mem_takeWhile_imp hc
  revert h
  simp only [List.contains_cons, List.contains_nil, Bool.or_false, Bool.not_eq_true',
    Bool.or_eq_false_iff]
  exact fun h => h.1

theorem read_input_eq (line : CStr) :
    read_input line = (cut_at ['\n', '\r'] line).take (MAX_INPUT - 1) := by
  unfold read_input cut_at
  exact takeWhile_take_comm _ _ _

theorem read_input_eq_43 (line : CStr) :
    cut_at ['\n'] (read_input line) = "43".toList ↔ cut_at ['\n', '\r'] line = "43".toList := by
  unfold read_input
  rw [cut_at_cut_at]
  have h := read_input_eq line
  unfold read_input at h
  rw [h]
  constructor
  · intro h1
    have hlen : ((cut_at ['\n', '\r'] line).take (MAX_INPUT - 1)).length = 2 := by rw [h1]; rfl
    rw [List.length_take] at hlen
    have h99 : MAX_INPUT - 1 = 99 := rfl
    have : (cut_at ['\n', '\r'] line).length ≤ MAX_INPUT - 1 := by omega
    rwa [List.take_of_length_le this] at h1
  · intro h1
    rw [h1]; rfl

/-- C3 (counterexample). In the walk-through state that awaits the answer in room 1 with
the cave exit absent, the line `43\rxyz` ends in no line terminator, so with its trailing
terminators removed it is still `43\rxyz` and not `43`; yet `process_input` opens the
cave exit. -/
theorem riddle_answer_interior_terminator :
    (after 7).waiting_for_riddle = true ∧ (after 7).current_room = 1 ∧
    (rd (after 7).rooms 1).cave = -1 ∧
    ¬ ((rd (process_input (after 7) "43\rxyz".toList).1.rooms 1).cave = 3 ↔
        ("43\rxyz".toList).rdropWhile (fun c => c == '\n' || c == '\r') = "43".toList) := by
  decide

/-- C3 (amended). In every state that is not terminated, awaits an answer in room 1, has
room 1's cave exit absent and holds the authored answer `43` for room 1, and for every
input line: after `process_input` the cave exit of room 1 is room 3 if and only if the
line cut at its first line terminator (`\n` or `\r`) is exactly `43`; otherwise the exit
stays absent (-1). -/
theorem riddle_answer_opens_cave (s : State) (line : CStr)
    (hover : s.game_over = false) (hw : s.waiting_for_riddle = true)
    (hcur : s.current_room = 1) (hcave : (rd s.rooms 1).cave = -1)
    (hans : (rd s.rooms 1).answer = "43".toList) :
    ((rd (process_input s line).1.rooms 1).cave = 3 ↔
        cut_at ['\n', '\r'] line = "43".toList) ∧
    (cut_at ['\n', '\r'] line ≠ "43".toList →
        (rd (process_input s line).1.rooms 1).cave = -1) := by
  have hlen : 1 < s.rooms.length := by
    by_contra hc
    have : rd s.rooms 1 = default := by
      unfold rd
      exact List.getD_eq_default _ _ (by simpa using hc)
    rw [this] at hans
    exact absurd hans (by decide)
  have hrooms : (process_input s line).1.rooms =
      if cut_at ['\n', '\r'] line = "43".toList
      then wr s.rooms 1 { rd s.rooms 1 with cave := 3 } else s.rooms := by
    unfold process_input
    simp only [hover, hw, if_true, Bool.false_eq_true, if_false, check_win_fst]
    have : ∀ X : State, (if win X = true then { X with game_over := true } else X).rooms = X.rooms := by
      intro X; split_ifs <;> rfl
    rw [this, handle_riddle_answer_fst]
    simp only [hcur, hans, read_input_eq_43]
  rw [hrooms]
  by_cases h : cut_at ['\n', '\r'] line = "43".toList
  · simp only [h, if_true, true_iff, ne_eq, not_true_eq_false, false_implies, and_true]
    have := rd_wr_natCast s.rooms 1 hlen { rd s.rooms 1 with cave := 3 }
    simp only [Nat.cast_one] at this
    rw [this]
    exact iff_of_true rfl trivial
  · simp only [h, if_false, iff_false, ne_eq, not_false_eq_true, true_implies]
    rw [hcave]
    exact ⟨by decide, rfl⟩

theorem riddle_answer_opens_cave_witness :
    (after 7).game_over = false ∧ (after 7).waiting_for_riddle = true ∧
    (after 7).current_room = 1 ∧ (rd (after 7).rooms 1).cave = -1 ∧
    (rd (after 7).rooms 1).answer = "43".toList ∧
    ((rd (process_input (after 7) "43\n".toList).1.rooms 1).cave = 3 ↔
        cut_at ['\n', '\r'] "43\n".toList = "43".toList) ∧
    (cut_at ['\n', '\r'] "43\n".toList ≠ "43".toList →
        (rd (process_input (after 7) "43\n".toList).1.rooms 1).cave = -1) :=
  ⟨by decide, by decide, by decide, by decide, by decide,
   riddle_answer_opens_cave (after 7) "43\n".toList (by decide) (by decide) (by decide)
     (by decide) (by decide)⟩

/-! ## C4 -/

/-- C4. Once the terminated flag is set, `process_input` returns the state as it is
(rooms, items, current room, inventory, both flags) and prints nothing, whatever the
line; in particular the victory message is not printed again. -/
theorem process_input_terminated (s : State) (line : CStr) (h : s.game_over = true) :
    process_input s line = (s, []) := by
  simp [process_input, h]

theorem process_input_terminated_witness :
    (after 10).game_over = true ∧
    process_input (after 10) "take jewel".toList = (after 10, []) :=
  ⟨by decide, process_input_terminated (after 10) "take jewel".toList (by decide)⟩

/-! ## C5 -/

theorem print_room_game_over (s : State) : (print_room s).1.game_over = s.game_over := by
  rw [print_room_fst]

theorem go_game_over (s : State) (d : CStr) : (go s d).1.game_over = s.game_over := by
  rw [go_fst]
  split_ifs
  · rfl
  · rw [print_room_game_over]

theorem take_item_game_over (s : State) (n : CStr) :
    (take_item s n).1.game_over = s.game_over := by
  rcases take_item_fst_cases s n with h1 | ⟨i, hi, h1⟩ <;> rw [h1]

theorem dispatch_game_over (s : State) (c a : CStr) (hc : c ≠ "quit".toList) :
    (dispatch s c a).1.game_over = s.game_over := by
  unfold dispatch
  rw [if_neg hc]
  split_ifs
  · exact print_room_game_over s
  · exact go_game_over s a
  · exact take_item_game_over s a
  · unfold show_inventory; split_ifs <;> rfl
  · unfold talk; split_ifs <;> rfl
  · rfl
  · rfl

theorem check_win_cases (r : State × List Out) :
    (win r.1 = true ∧ check_win r = ({ r.1 with game_over := true }, r.2 ++ victory)) ∨
    (win r.1 = false ∧ check_win r = r) := by
  unfold check_win print_game_over
  by_cases h : win r.1 = true
  · left; simp [h]
  · right; simp [h]

theorem win_after_check_win (r : State × List Out) : win (check_win r).1 = win r.1 := by
  rcases check_win_cases r with ⟨_, h⟩ | ⟨_, h⟩
  · rw [h]; rfl
  · rw [h]

/-- C5. For every non-terminated state (reachable or not) and every input line: if, when
`process_input` returns, room 3 has been visited and item 2 has been taken, then the
session is terminated and the victory message is the last thing printed; and if room 3
has been visited but item 2 has not been taken, and the line was not handled as the
command `quit` (an answer was awaited, or the folded verb is not `quit`), the session is
not terminated. -/
theorem win_condition (s : State) (line : CStr) (hover : s.game_over = false) :
    ((rd (process_input s line).1.rooms 3).visited = true →
      (rd (process_input s line).1.items 2).taken = true →
      (process_input s line).1.game_over = true ∧ victory <:+ (process_input s line).2) ∧
    ((s.waiting_for_riddle = true ∨
        to_lower (sscanf2 (read_input line)).1 ≠ "quit".toList) →
      (rd (process_input s line).1.rooms 3).visited = true →
      (rd (process_input s line).1.items 2).taken = false →
      (process_input s line).1.game_over = false) := by
  have key : ∀ X : State × List Out,
      (win (check_win X).1 = true →
        (check_win X).1.game_over = true ∧ victory <:+ (check_win X).2) ∧
      (win (check_win X).1 = false → (check_win X).1.game_over = X.1.game_over) := by
    intro X
    rcases check_win_cases X with ⟨h1, h2⟩ | ⟨h1, h2⟩
    · refine ⟨fun _ => ?_, fun h => ?_⟩
      · rw [h2]; exact ⟨rfl, List.suffix_append _ _⟩
      · rw [win_after_check_win, h1] at h; exact absurd h (by decide)
    · refine ⟨fun h => ?_, fun _ => ?_⟩
      · rw [win_after_check_win, h1] at h; exact absurd h (by decide)
      · rw [h2]
  constructor
  · intro hv ht
    have hwin : win (process_input s line).1 = true := by simp [win, hv, ht]
    revert hwin
    unfold process_input
    simp only [hover, Bool.false_eq_true, if_false]
    split_ifs <;> exact (key _).1
  · intro hq hv ht
    have hwin : win (process_input s line).1 = false := by simp [win, hv, ht]
    revert hwin
    unfold process_input
    simp only [hover, Bool.false_eq_true, if_false]
    split_ifs with hw
    · intro h
      rw [(key _).2 h, handle_riddle_answer_fst]
      exact hover
    · intro h
      have hc : to_lower (sscanf2 (read_input line)).1 ≠ "quit".toList := by
        rcases hq with hq | hq
        · exact absurd hq hw
        · exact hq
      rw [(key _).2 h, dispatch_game_over _ _ _ hc]
      exact hover

theorem win_condition_witness :
    (after 9).game_over = false ∧
    ((rd (process_input (after 9) "take jewel".toList).1.rooms 3).visited = true →
      (rd (process_input (after 9) "take jewel".toList).1.items 2).taken = true →
      (process_input (after 9) "take jewel".toList).1.game_over = true ∧
        victory <:+ (process_input (after 9) "take jewel".toList).2) ∧
    (((after 9).waiting_for_riddle = true ∨
        to_lower (sscanf2 (read_input "take jewel".toList)).1 ≠ "quit".toList) →
      (rd (process_input (after 9) "take jewel".toList).1.rooms 3).visited = true →
      (rd (process_input (after 9) "take jewel".toList).1.items 2).taken = false →
      (process_input (after 9) "take jewel".toList).1.game_over = false) :=
  ⟨by decide, win_condition (after 9) "take jewel".toList (by decide)⟩

/-! ## C6 -/

/-- C6. In every state reachable from startup the item array has its `MAX_ITEMS` entries
and, for every index `i` below `MAX_ITEMS`, `items[i].taken` holds if and only if
`items[i].location` is -1 (carried); so no taken item has a room (a location of 0 or
more) as its location. -/
theorem item_state_consistent (s : State) (h : Reachable s) :
    s.items.length = MAX_ITEMS ∧
    ∀ i : Nat, i < MAX_ITEMS →
      ((rd s.items i).taken = true ↔ (rd s.items i).location = -1) ∧
      ¬ ((rd s.items i).taken = true ∧ 0 ≤ (rd s.items i).location) := by
  have hinv := (inv_of_reachable s h).tables
  refine ⟨hinv.items_len, fun i hi => ?_⟩
  have hi2 : i < s.items.length := by rw [hinv.items_len]; exact hi
  have hmem : rd s.items (i : Int) ∈ s.items := by
    rw [rd_natCast s.items i hi2]; exact List.getElem_mem _
  have h1 := hinv.items_ok _ hmem
  refine ⟨h1, fun h2 => ?_⟩
  have := h1.1 h2.1
  omega

theorem item_state_consistent_witness :
    Reachable (after 5) ∧ (after 5).items.length = MAX_ITEMS ∧
    ∀ i : Nat, i < MAX_ITEMS →
      ((rd (after 5).items i).taken = true ↔ (rd (after 5).items i).location = -1) ∧
      ¬ ((rd (after 5).items i).taken = true ∧ 0 ≤ (rd (after 5).items i).location) :=
  ⟨reachable_after 5, item_state_consistent (after 5) (reachable_after 5)⟩

/-! ## C7 -/

theorem check_riddle_snd (s : State) :
    (check_riddle s).2 =
      if (rd s.rooms s.current_room).riddle = true ∧ count_jewels_taken s = 2 then riddle_prompt
      else if (rd s.rooms s.current_room).riddle = true then riddle_rebuke else [] := by
  unfold check_riddle
  dsimp only
  split_ifs with h1 h2 h3 h4 h5 <;> simp_all

set_option maxRecDepth 100000 in
/-- C7 (the code at the failing input). In the walk-through state reached by the correct
answer `43` the current room is room 1, its riddle has been answered (cave exit open) and
two items are taken; the flag `answer_correct` of the room is still false, and
`check_riddle` sets the awaiting-answer flag and emits the prompt all the same, as does
`print_room`. -/
theorem check_riddle_ignores_answered :
    (after 8).current_room = 1 ∧ (rd (after 8).rooms 1).riddle = true ∧
    (rd (after 8).rooms 1).cave = 3 ∧ (rd (after 8).rooms 1).answer_correct = false ∧
    count_jewels_taken (after 8) = 2 ∧ (after 8).waiting_for_riddle = false ∧
    check_riddle (after 8) = ({ after 8 with waiting_for_riddle := true }, riddle_prompt) ∧
    (print_room (after 8)).1.waiting_for_riddle = true ∧
    riddle_prompt <:+: (print_room (after 8)).2 := by
  decide

/-! ## C8 -/

theorem rd_wr {α : Type} [Inhabited α] (l : List α) (i j : Int) (a : α) :
    rd (wr l i a) j = if i.toNat = j.toNat ∧ i.toNat < l.length then a else rd l j := by
  unfold rd wr
  rw [List.getD_eq_getElem?_getD, List.getD_eq_getElem?_getD, List.getElem?_set]
  by_cases h : i.toNat = j.toNat
  · by_cases h2 : i.toNat < l.length
    · have h3 : j.toNat < l.length := h ▸ h2
      simp [h, h2, h3]
    · have h3 : ¬ j.toNat < l.length := h ▸ h2
      have h4 := List.getElem?_eq_none (Nat.le_of_not_lt h3)
      simp [h, h3, h4]
  · simp [h]

theorem win_handle_riddle_answer (s : State) (a : CStr) :
    win (handle_riddle_answer s a).1 = win s := by
  rw [handle_riddle_answer_fst]
  unfold win
  dsimp only
  split_ifs
  · rw [rd_wr]; split_ifs with h
    · have : (3 : Int).toNat = s.current_room.toNat := h.1.symm
      have h2 : rd s.rooms s.current_room = rd s.rooms 3 := by unfold rd; rw [this]
      rw [h2]
    · rfl
  · rfl

theorem process_input_awaiting (s : State) (line : CStr) (hover : s.game_over = false)
    (hw : s.waiting_for_riddle = true) (hwin : win s = false) :
    process_input s line = handle_riddle_answer s (read_input line) := by
  unfold process_input
  simp only [hover, hw, if_true, Bool.false_eq_true, if_false]
  rcases check_win_cases (handle_riddle_answer s (read_input line)) with ⟨h1, _⟩ | ⟨_, h2⟩
  · rw [win_handle_riddle_answer, hwin] at h1; exact absurd h1 (by decide)
  · exact h2

theorem print_room_prompts (t : State) (h : Tables t.rooms t.items)
    (hcur : t.current_room = 1) (hcount : count_jewels_taken t = 2) :
    (print_room t).1.waiting_for_riddle = true ∧ riddle_prompt <:+: (print_room t).2 := by
  have hr : (rd t.rooms t.current_room).riddle = true := by
    rw [hcur]; exact (room1_answer t.rooms h.rooms_static).2
  constructor
  · rw [print_room_fst]; simp [hr, hcount]
  · rw [print_room_snd_eq, check_riddle_snd, if_pos (And.intro hr hcount)]
    exact List.infix_append _ _ _

/-- C8. In every reachable state that is not terminated and awaits a riddle answer (the
current room is then room 1), whatever the line is, `process_input` prints what
`handle_riddle_answer` prints for it and nothing else, clears the awaiting-answer flag,
and leaves the current room, the inventory, every item and the terminated flag as they
were. If the line read is not the expected answer `43`, the rooms (so every exit) are
unchanged too, only the failure message is printed, and describing the room again with
two items taken (at once, or in any later reachable state) prompts again. -/
theorem answer_capture (s : State) (line : CStr) (hr : Reachable s)
    (hover : s.game_over = false) (hw : s.waiting_for_riddle = true) :
    s.current_room = 1 ∧
    (process_input s line).2 = (handle_riddle_answer s (read_input line)).2 ∧
    (process_input s line).1.waiting_for_riddle = false ∧
    (process_input s line).1.current_room = s.current_room ∧
    (process_input s line).1.inventory = s.inventory ∧
    (process_input s line).1.inventory_count = s.inventory_count ∧
    (process_input s line).1.items = s.items ∧
    (process_input s line).1.game_over = false ∧
    (read_input line ≠ "43".toList →
      (process_input s line).1.rooms = s.rooms ∧
      (process_input s line).2 = [riddle_failure] ∧
      (print_room (process_input s line).1).1.waiting_for_riddle = true ∧
      riddle_prompt <:+: (print_room (process_input s line).1).2 ∧
      ∀ t, Reachable t → t.current_room = s.current_room → count_jewels_taken t = 2 →
        (print_room t).1.waiting_for_riddle = true ∧ riddle_prompt <:+: (print_room t).2) := by
  have hinv := inv_of_reachable s hr
  obtain ⟨hcur, hcount⟩ := hinv.awaiting hw
  have hp := process_input_awaiting s line hover hw (hinv.nowin hover)
  have hfst := handle_riddle_answer_fst s (read_input line)
  rw [hp]
  refine ⟨hcur, rfl, ?_, ?_, ?_, ?_, ?_, ?_, ?_⟩
  · rw [hfst]
  · rw [hfst]
  · rw [hfst]
  · rw [hfst]
  · rw [hfst]
  · rw [hfst]; exact hover
  · intro hne
    have hans := (room1_answer s.rooms hinv.tables.rooms_static).1
    have hcut : cut_at ['\n'] (read_input line) ≠ (rd s.rooms s.current_room).answer := by
      rw [hcur, hans]
      unfold read_input
      rw [cut_at_cut_at]
      exact hne
    have hstate : (handle_riddle_answer s (read_input line)).1 =
        { s with waiting_for_riddle := false } := by
      rw [hfst]; simp only [if_neg hcut]
    have hout : (handle_riddle_answer s (read_input line)).2 = [riddle_failure] := by
      unfold handle_riddle_answer
      simp only [if_neg hcut]
    refine ⟨by rw [hstate], hout, ?_⟩
    have h1 := print_room_prompts { s with waiting_for_riddle := false } hinv.tables hcur hcount
    rw [hstate]
    refine ⟨h1.1, h1.2, ?_⟩
    intro t ht htc htn
    exact print_room_prompts t (inv_of_reachable t ht).tables (htc.trans hcur) htn

theorem answer_capture_witness :
    Reachable (after 7) ∧ (after 7).game_over = false ∧ (after 7).waiting_for_riddle = true ∧
    (after 7).current_room = 1 ∧
    (process_input (after 7) "quit".toList).2 =
      (handle_riddle_answer (after 7) (read_input "quit".toList)).2 ∧
    (process_input (after 7) "quit".toList).1.waiting_for_riddle = false ∧
    (process_input (after 7) "quit".toList).1.current_room = (after 7).current_room ∧
    (process_input (after 7) "quit".toList).1.inventory = (after 7).inventory ∧
    (process_input (after 7) "quit".toList).1.inventory_count = (after 7).inventory_count ∧
    (process_input (after 7) "quit".toList).1.items = (after 7).items ∧
    (process_input (after 7) "quit".toList).1.game_over = false ∧
    (read_input "quit".toList ≠ "43".toList →
      (process_input (after 7) "quit".toList).1.rooms = (after 7).rooms ∧
      (process_input (after 7) "quit".toList).2 = [riddle_failure] ∧
      (print_room (process_input (after 7) "quit".toList).1).1.waiting_for_riddle = true ∧
      riddle_prompt <:+: (print_room (process_input (after 7) "quit".toList).1).2 ∧
      ∀ t, Reachable t → t.current_room = (after 7).current_room →
        count_jewels_taken t = 2 →
        (print_room t).1.waiting_for_riddle = true ∧ riddle_prompt <:+: (print_room t).2) :=
  ⟨reachable_after 7, by decide, by decide,
   answer_capture (after 7) "quit".toList (reachable_after 7) (by decide) (by decide)⟩

/-! ## C9 -/

theorem take_succ_set {α : Type} (l : List α) (n : Nat) (x : α) (h : n < l.length) :
    (l.set n x).take (n + 1) = l.take n ++ [x] := by
  induction l generalizing n with
  | nil => simp at h
  | cons y ys ih =>
    cases n with
    | zero => simp
    | succ k => simpa using ih k (by simpa using h)

/-- C9. For every state whose inventory array has its `MAX_INVENTORY` slots and whose
`inventory_count` is not negative, and every argument `item_name`, with `n` the name folded
to lower case by the loop of `take_item`: if no item lies in the current room under the
name `n`, the state is unchanged and "You don't see that here." is printed. Otherwise let
`i` be the lowest index of such an item: if it is not takeable the state is unchanged and
"You can't take that." is printed; if it is takeable and `inventory_count` is already
`MAX_INVENTORY` or more, the state is unchanged and "Your inventory is full!" is printed;
else item `i` alone gets location -1 and `taken`, `i` is written at the end of the
inventory (the carried list grows by `i` at its end), `inventory_count` grows by one,
nothing else changes, and "You take the ..." is printed. -/
theorem take_item_cases (s : State) (item_name : CStr)
    (hlen : s.inventory.length = MAX_INVENTORY) (hcnt : 0 ≤ s.inventory_count) :
    ((∀ it ∈ s.items, ¬ (it.location = s.current_room ∧ it.name = to_lower item_name)) →
      take_item s item_name = (s, [pr "You don't see that here.\n" []])) ∧
    (∀ i, ∀ h : i < s.items.length,
      (s.items[i].location = s.current_room ∧ s.items[i].name = to_lower item_name) →
      (∀ j, ∀ hj : j < s.items.length, j < i →
        ¬ (s.items[j].location = s.current_room ∧ s.items[j].name = to_lower item_name)) →
      (s.items[i].takeable = false →
        take_item s item_name = (s, [pr "You can't take that.\n" []])) ∧
      (s.items[i].takeable = true → (MAX_INVENTORY : Int) ≤ s.inventory_count →
        take_item s item_name = (s, [pr "Your inventory is full!\n" []])) ∧
      (s.items[i].takeable = true → s.inventory_count < (MAX_INVENTORY : Int) →
        take_item s item_name =
          ({ s with items := s.items.set i { s.items[i] with location := -1, taken := true },
                    inventory := s.inventory.set s.inventory_count.toNat (i : Int),
                    inventory_count := s.inventory_count + 1 },
           [pr "You take the %s.\n" [s.items[i].name]]) ∧
        (take_item s item_name).1.inventory.take (take_item s item_name).1.inventory_count.toNat =
          s.inventory.take s.inventory_count.toNat ++ [(i : Int)])) := by
  refine ⟨fun hnone => ?_, fun i h hm hlow => ?_⟩
  · unfold take_item
    simp [find_item_none s (to_lower item_name) hnone]
  · have hfound := take_item_found s item_name i h
      (find_item_lowest s (to_lower item_name) i h hm hlow)
    refine ⟨fun ht => ?_, fun ht hfull => ?_, fun ht hroom => ?_⟩
    · rw [hfound, if_pos ht]
    · rw [hfound, if_neg (by simp [ht]), if_pos hfull]
    · have heq : take_item s item_name =
          ({ s with items := s.items.set i { s.items[i] with location := -1, taken := true },
                    inventory := s.inventory.set s.inventory_count.toNat (i : Int),
                    inventory_count := s.inventory_count + 1 },
           [pr "You take the %s.\n" [s.items[i].name]]) := by
        rw [hfound, if_neg (by simp [ht]), if_neg (by omega)]
      refine ⟨heq, ?_⟩
      rw [heq]
      have h1 : (s.inventory_count + 1).toNat = s.inventory_count.toNat + 1 := by omega
      have h2 : s.inventory_count.toNat < s.inventory.length := by
        rw [hlen]; unfold MAX_INVENTORY at hroom ⊢; omega
      show (s.inventory.set s.inventory_count.toNat (i : Int)).take (s.inventory_count + 1).toNat = _
      rw [h1, take_succ_set _ _ _ h2]

theorem take_item_cases_witness :
    startup.1.inventory.length = MAX_INVENTORY ∧ 0 ≤ startup.1.inventory_count ∧
    (((∀ it ∈ startup.1.items, ¬ (it.location = startup.1.current_room ∧ it.name = to_lower "JEWEL".toList)) →
      take_item startup.1 "JEWEL".toList = (startup.1, [pr "You don't see that here.\n" []])) ∧
    (∀ i, ∀ h : i < startup.1.items.length,
      (startup.1.items[i].location = startup.1.current_room ∧ startup.1.items[i].name = to_lower "JEWEL".toList) →
      (∀ j, ∀ hj : j < startup.1.items.length, j < i →
        ¬ (startup.1.items[j].location = startup.1.current_room ∧ startup.1.items[j].name = to_lower "JEWEL".toList)) →
      (startup.1.items[i].takeable = false →
        take_item startup.1 "JEWEL".toList = (startup.1, [pr "You can't take that.\n" []])) ∧
      (startup.1.items[i].takeable = true → (MAX_INVENTORY : Int) ≤ startup.1.inventory_count →
        take_item startup.1 "JEWEL".toList = (startup.1, [pr "Your inventory is full!\n" []])) ∧
      (startup.1.items[i].takeable = true → startup.1.inventory_count < (MAX_INVENTORY : Int) →
        take_item startup.1 "JEWEL".toList =
          ({ startup.1 with items := startup.1.items.set i { startup.1.items[i] with location := -1, taken := true },
                            inventory := startup.1.inventory.set startup.1.inventory_count.toNat (i : Int),
                            inventory_count := startup.1.inventory_count + 1 },
           [pr "You take the %s.\n" [startup.1.items[i].name]]) ∧
        (take_item startup.1 "JEWEL".toList).1.inventory.take (take_item startup.1 "JEWEL".toList).1.inventory_count.toNat =
          startup.1.inventory.take startup.1.inventory_count.toNat ++ [(i : Int)]))) :=
  ⟨by decide, by decide, take_item_cases startup.1 "JEWEL".toList (by decide) (by decide)⟩

/-! ## C10 -/

theorem check_win_noop (s : State) (o : List Out) (h : win s = false) :
    check_win (s, o) = (s, o) := by
  rcases check_win_cases (s, o) with ⟨h1, _⟩ | ⟨_, h2⟩
  · rw [show win (s, o).1 = win s from rfl, h] at h1; exact absurd h1 (by decide)
  · exact h2

theorem next_room_absent (room : Room) (d : CStr)
    (h : d ∉ directions ∨
      (d = "cave".toList ∧ room.cave = -1) ∨
      ((d = "north".toList ∨ d = "n".toList) ∧ room.north = -1) ∨
      ((d = "south".toList ∨ d = "s".toList) ∧ room.south = -1) ∨
      ((d = "east".toList ∨ d = "e".toList) ∧ room.east = -1) ∨
      ((d = "west".toList ∨ d = "w".toList) ∧ room.west = -1)) :
    next_room room d = -1 := by
  unfold next_room
  rcases h with h | ⟨h, hx⟩ | ⟨h | h, hx⟩ | ⟨h | h, hx⟩ | ⟨h | h, hx⟩ | ⟨h | h, hx⟩
  · simp only [directions, List.mem_cons, List.mem_singleton, not_or, List.not_mem_nil,
      or_false] at h
    simp only [h, false_or, if_false]
  all_goals (subst h; simpa using hx)

/-- C10. In every reachable state that is not terminated and awaits no riddle answer:
a line whose folded verb is none of `quit`, `look`, `go`, `take`, `inventory`, `i`,
`talk`, `help` leaves the whole state as it is and prints only "I don't understand that
command. ..."; and a line with the verb `go` whose folded argument is no direction word,
or is a direction word for which the current room has no exit (-1), leaves the whole
state as it is and prints only "You can't go that way." -/
theorem rejected_commands (s : State) (line : CStr) (hr : Reachable s)
    (hover : s.game_over = false) (hw : s.waiting_for_riddle = false) :
    (to_lower (sscanf2 (read_input line)).1 ∉ verbs →
      process_input s line =
        (s, [pr "I don't understand that command. Type 'help' for a list of commands.\n" []])) ∧
    (to_lower (sscanf2 (read_input line)).1 = "go".toList →
      (to_lower (sscanf2 (read_input line)).2 ∉ directions ∨
        (to_lower (sscanf2 (read_input line)).2 = "cave".toList ∧
          (rd s.rooms s.current_room).cave = -1) ∨
        ((to_lower (sscanf2 (read_input line)).2 = "north".toList ∨
          to_lower (sscanf2 (read_input line)).2 = "n".toList) ∧
          (rd s.rooms s.current_room).north = -1) ∨
        ((to_lower (sscanf2 (read_input line)).2 = "south".toList ∨
          to_lower (sscanf2 (read_input line)).2 = "s".toList) ∧
          (rd s.rooms s.current_room).south = -1) ∨
        ((to_lower (sscanf2 (read_input line)).2 = "east".toList ∨
          to_lower (sscanf2 (read_input line)).2 = "e".toList) ∧
          (rd s.rooms s.current_room).east = -1) ∨
        ((to_lower (sscanf2 (read_input line)).2 = "west".toList ∨
          to_lower (sscanf2 (read_input line)).2 = "w".toList) ∧
          (rd s.rooms s.current_room).west = -1)) →
      process_input s line = (s, [pr "You can't go that way.\n" []])) := by
  have hwin := (inv_of_reachable s hr).nowin hover
  constructor
  · intro hv
    simp only [verbs, List.mem_cons, List.mem_singleton, not_or, List.not_mem_nil,
      or_false] at hv
    unfold process_input
    simp only [hover, hw, Bool.false_eq_true, if_false]
    have hd : dispatch s (to_lower (sscanf2 (read_input line)).1) (sscanf2 (read_input line)).2 =
        (s, [pr "I don't understand that command. Type 'help' for a list of commands.\n" []]) := by
      unfold dispatch
      simp only [hv, false_or, if_false]
    rw [hd]
    exact check_win_noop s _ hwin
  · intro hv hd
    unfold process_input
    simp only [hover, hw, Bool.false_eq_true, if_false]
    have hgo : dispatch s (to_lower (sscanf2 (read_input line)).1) (sscanf2 (read_input line)).2 =
        go s (sscanf2 (read_input line)).2 := by
      unfold dispatch
      rw [hv]
      rw [if_neg (by decide), if_neg (by decide), if_pos rfl]
    have hcant : go s (sscanf2 (read_input line)).2 = (s, [pr "You can't go that way.\n" []]) := by
      unfold go
      simp only [next_room_absent _ _ hd, if_true]
    rw [hgo, hcant]
    exact check_win_noop s _ hwin

theorem rejected_commands_witness :
    Reachable (after 1) ∧ (after 1).game_over = false ∧
    (after 1).waiting_for_riddle = false ∧
    ((to_lower (sscanf2 (read_input "go west".toList)).1 ∉ verbs →
      process_input (after 1) "go west".toList =
        (after 1, [pr "I don't understand that command. Type 'help' for a list of commands.\n" []])) ∧
    (to_lower (sscanf2 (read_input "go west".toList)).1 = "go".toList →
      (to_lower (sscanf2 (read_input "go west".toList)).2 ∉ directions ∨
        (to_lower (sscanf2 (read_input "go west".toList)).2 = "cave".toList ∧
          (rd (after 1).rooms (after 1).current_room).cave = -1) ∨
        ((to_lower (sscanf2 (read_input "go west".toList)).2 = "north".toList ∨
          to_lower (sscanf2 (read_input "go west".toList)).2 = "n".toList) ∧
          (rd (after 1).rooms (after 1).current_room).north = -1) ∨
        ((to_lower (sscanf2 (read_input "go west".toList)).2 = "south".toList ∨
          to_lower (sscanf2 (read_input "go west".toList)).2 = "s".toList) ∧
          (rd (after 1).rooms (after 1).current_room).south = -1) ∨
        ((to_lower (sscanf2 (read_input "go west".toList)).2 = "east".toList ∨
          to_lower (sscanf2 (read_input "go west".toList)).2 = "e".toList) ∧
          (rd (after 1).rooms (after 1).current_room).east = -1) ∨
        ((to_lower (sscanf2 (read_input "go west".toList)).2 = "west".toList ∨
          to_lower (sscanf2 (read_input "go west".toList)).2 = "w".toList) ∧
          (rd (after 1).rooms (after 1).current_room).west = -1)) →
      process_input (after 1) "go west".toList = (after 1, [pr "You can't go that way.\n" []]))) :=
  ⟨reachable_after 1, by decide, by decide,
   rejected_commands (after 1) "go west".toList (reachable_after 1) (by decide) (by decide)⟩

/-! ## C11 -/

theorem lower_char_cases (c : Char) :
    lower_char c = c ∨ ∃ n, 65 ≤ n ∧ n ≤ 90 ∧ c = Char.ofNat n := by
  unfold lower_char
  by_cases h : 'A' ≤ c ∧ c ≤ 'Z'
  · right
    refine ⟨c.toNat, ?_, ?_, (Char.ofNat_toNat c).symm⟩
    · have := h.1
      rw [Char.le_def] at this
      exact this
    · have := h.2
      rw [Char.le_def] at this
      exact this
  · left
    rw [if_neg h]

theorem isspace_lower_char (c : Char) : isspace (lower_char c) = isspace c := by
  rcases lower_char_cases c with h | ⟨n, h1, h2, rfl⟩
  · rw [h]
  · interval_cases n <;> decide

theorem terminator_lower_char (c : Char) :
    ['\n', '\r'].contains (lower_char c) = ['\n', '\r'].contains c := by
  rcases lower_char_cases c with h | ⟨n, h1, h2, rfl⟩
  · rw [h]
  · interval_cases n <;> decide

theorem lower_char_idem (c : Char) : lower_char (lower_char c) = lower_char c := by
  rcases lower_char_cases c with h | ⟨n, h1, h2, rfl⟩
  · rw [h, h]
  · interval_cases n <;> decide

theorem to_lower_idem (x : CStr) : to_lower (to_lower x) = to_lower x := by
  unfold to_lower
  rw [List.map_map]
  exact List.map_congr_left (fun c _ => lower_char_idem c)

theorem isspace_comp_lower : isspace ∘ lower_char = isspace :=
  funext isspace_lower_char

theorem not_isspace_comp_lower :
    (fun c => !isspace c) ∘ lower_char = (fun c => !isspace c) :=
  funext (fun c => by simp [isspace_lower_char])

theorem cut_at_to_lower (x : CStr) :
    cut_at ['\n', '\r'] (to_lower x) = to_lower (cut_at ['\n', '\r'] x) := by
  unfold cut_at to_lower
  rw [List.takeWhile_map]
  congr 2
  exact funext (fun c => by simp only [Function.comp, terminator_lower_char])

theorem read_input_to_lower (line : CStr) :
    read_input (to_lower line) = to_lower (read_input line) := by
  unfold read_input
  rw [← cut_at_to_lower]
  unfold to_lower
  rw [List.map_take]

theorem scan_s_to_lower (w : Nat) (x : CStr) :
    scan_s w (to_lower x) =
      (scan_s w x).map (fun p => (to_lower p.1, to_lower p.2)) := by
  unfold scan_s to_lower
  simp only [List.dropWhile_map, isspace_comp_lower, List.map_eq_nil_iff, List.takeWhile_map,
    not_isspace_comp_lower, ← List.map_take, List.length_map, ← List.map_drop]
  split_ifs <;> rfl

theorem sscanf2_to_lower (x : CStr) :
    sscanf2 (to_lower x) = (to_lower (sscanf2 x).1, to_lower (sscanf2 x).2) := by
  unfold sscanf2
  rw [scan_s_to_lower]
  cases h1 : scan_s 49 x with
  | none => rfl
  | some p =>
    obtain ⟨c, rest⟩ := p
    simp only [Option.map_some']
    have h2 : List.dropWhile isspace (to_lower rest) = to_lower (List.dropWhile isspace rest) := by
      unfold to_lower
      rw [List.dropWhile_map, isspace_comp_lower]
    rw [h2, scan_s_to_lower]
    cases h3 : scan_s 49 (List.dropWhile isspace rest) with
    | none => rfl
    | some q => rfl

theorem go_to_lower (s : State) (a : CStr) : go s (to_lower a) = go s a := by
  unfold go
  rw [to_lower_idem]

theorem take_item_to_lower (s : State) (a : CStr) : take_item s (to_lower a) = take_item s a := by
  unfold take_item
  rw [to_lower_idem]

theorem dispatch_to_lower (s : State) (c a : CStr) :
    dispatch s c (to_lower a) = dispatch s c a := by
  unfold dispatch
  rw [go_to_lower, take_item_to_lower]

theorem process_input_to_lower (s : State) (line : CStr) (hw : s.waiting_for_riddle = false) :
    process_input s (to_lower line) = process_input s line := by
  unfold process_input
  simp only [hw, Bool.false_eq_true, if_false]
  rw [read_input_to_lower, sscanf2_to_lower]
  simp only [to_lower_idem, dispatch_to_lower]

/-- C11. In every state that awaits no riddle answer, two input lines that differ only in
the ASCII letter case of their characters (their foldings to lower case are equal), in
particular in the case of the verb and of the argument, give the same state and the same
output. -/
theorem case_insensitive (s : State) (l1 l2 : CStr) (hw : s.waiting_for_riddle = false)
    (h : to_lower l1 = to_lower l2) : process_input s l1 = process_input s l2 := by
  rw [← process_input_to_lower s l1 hw, ← process_input_to_lower s l2 hw, h]

theorem case_insensitive_witness :
    startup.1.waiting_for_riddle = false ∧
    to_lower "GO NORTH".toList = to_lower "Go North".toList ∧
    process_input startup.1 "GO NORTH".toList = process_input startup.1 "Go North".toList :=
  ⟨by decide, by decide,
   case_insensitive startup.1 "GO NORTH".toList "Go North".toList (by decide) (by decide)⟩

/-! ## More invariants of the reachable states -/

theorem items_of_facts : ∀ t0 t1 t2 : Bool,
    count_taken (items_of t0 t1 t2) =
      (if t0 then 1 else 0) + (if t1 then 1 else 0) + (if t2 then 1 else 0) ∧
    (rd (items_of t0 t1 t2) 0).taken = t0 ∧ (rd (items_of t0 t1 t2) 1).taken = t1 ∧
    (rd (items_of t0 t1 t2) 2).taken = t2 ∧
    (rd (items_of t0 t1 t2) 0).location = (if t0 then -1 else 0) ∧
    (rd (items_of t0 t1 t2) 1).location = (if t1 then -1 else 2) ∧
    (rd (items_of t0 t1 t2) 2).location = (if t2 then -1 else 3) ∧
    (items_of t0 t1 t2).set 0 (carry (rd (items_of t0 t1 t2) 0)) = items_of true t1 t2 ∧
    (items_of t0 t1 t2).set 1 (carry (rd (items_of t0 t1 t2) 1)) = items_of t0 true t2 ∧
    (items_of t0 t1 t2).set 2 (carry (rd (items_of t0 t1 t2) 2)) = items_of t0 t1 true := by
  decide

theorem items_of_rest : ∀ t0 t1 t2 : Bool, ∀ i : Nat, i < 20 →
    ((rd (items_of t0 t1 t2) (i : Int)).takeable = true → i < 3) ∧
    ((rd (items_of t0 t1 t2) (i : Int)).taken = true → i < 3) := by
  decide

theorem startup_items : startup.1.items = items_of false false false := by
  decide

theorem take_item_shape (s : State) (n : CStr) :
    (take_item s n).1 = s ∨
    ∃ i, ∃ h : i < s.items.length,
      s.items[i].location = s.current_room ∧ s.items[i].takeable = true ∧
      s.inventory_count < (MAX_INVENTORY : Int) ∧
      (take_item s n).1 =
        { s with items := s.items.set i (carry s.items[i]),
                 inventory := s.inventory.set s.inventory_count.toNat (i : Int),
                 inventory_count := s.inventory_count + 1 } := by
  rcases find_from_cases s.current_room (to_lower n) s.items 0 with ⟨h1, _⟩ | ⟨j, hj, h1, h2, _⟩
  · left
    unfold take_item
    have : find_item_in_room s (to_lower n) = -1 := h1
    simp [this]
  · have hf : find_item_in_room s (to_lower n) = (j : Int) := by
      unfold find_item_in_room; simpa using h1
    rw [take_item_found s n j hj hf]
    split_ifs with h3 h4
    · left; rfl
    · left; rfl
    · right
      exact ⟨j, hj, h2.1, by simpa using h3, by omega, rfl⟩

theorem dispatch_shape (s : State) (c a : CStr) :
    (dispatch s c a).1 = s ∨
    (dispatch s c a).1 = { s with game_over := true } ∨
    (dispatch s c a).1 = (print_room s).1 ∨
    (∃ d, next_room (rd s.rooms s.current_room) d ≠ -1 ∧
      (dispatch s c a).1 =
        (print_room { s with current_room := next_room (rd s.rooms s.current_room) d }).1) ∨
    (∃ i, ∃ h : i < s.items.length,
      s.items[i].location = s.current_room ∧ s.items[i].takeable = true ∧
      s.inventory_count < (MAX_INVENTORY : Int) ∧
      (dispatch s c a).1 =
        { s with items := s.items.set i (carry s.items[i]),
                 inventory := s.inventory.set s.inventory_count.toNat (i : Int),
                 inventory_count := s.inventory_count + 1 }) := by
  unfold dispatch
  split_ifs
  · right; left; rfl
  · right; right; left; rfl
  · rw [go_fst]
    split_ifs with h
    · left; rfl
    · right; right; right; left; exact ⟨_, h, rfl⟩
  · rcases take_item_shape s a with h | h
    · left; exact h
    · right; right; right; right; exact h
  · left; unfold show_inventory; split_ifs <;> rfl
  · left; unfold talk; split_ifs <;> rfl
  · left; rfl
  · left; rfl

theorem rooms_length (rooms : List Room) (h : rooms.map static = authored_static) :
    rooms.length = 10 := by
  have := congrArg List.length h
  rw [List.length_map] at this
  rw [this]
  decide

theorem authored_exits (rooms : List Room) (h : rooms.map static = authored_static) :
    ((rd rooms 0).north = 1 ∧ (rd rooms 0).south = -1 ∧ (rd rooms 0).east = 2 ∧
      (rd rooms 0).west = -1) ∧
    ((rd rooms 1).north = -1 ∧ (rd rooms 1).south = 0 ∧ (rd rooms 1).east = -1 ∧
      (rd rooms 1).west = -1) ∧
    ((rd rooms 2).north = -1 ∧ (rd rooms 2).south = -1 ∧ (rd rooms 2).east = -1 ∧
      (rd rooms 2).west = 0) ∧
    ((rd rooms 3).north = -1 ∧ (rd rooms 3).south = 1 ∧ (rd rooms 3).east = -1 ∧
      (rd rooms 3).west = -1) := by
  have key : ∀ k : Int, static (rd rooms k) = authored_static.getD k.toNat (static default) := by
    intro k; rw [rd_static, h]
  have e : ∀ r : Room, r.north = (static r).north ∧ r.south = (static r).south ∧
      r.east = (static r).east ∧ r.west = (static r).west := fun _ => ⟨rfl, rfl, rfl, rfl⟩
  refine ⟨?_, ?_, ?_, ?_⟩
  · rw [(e _).1, (e _).2.1, (e _).2.2.1, (e _).2.2.2, key 0]; decide
  · rw [(e _).1, (e _).2.1, (e _).2.2.1, (e _).2.2.2, key 1]; decide
  · rw [(e _).1, (e _).2.1, (e _).2.2.1, (e _).2.2.2, key 2]; decide
  · rw [(e _).1, (e _).2.1, (e _).2.2.1, (e _).2.2.2, key 3]; decide

theorem authored_exits_rest (rooms : List Room) (h : rooms.map static = authored_static)
    (n : Nat) (h4 : 4 ≤ n) (h10 : n < 10) :
    (rd rooms n).north = -1 ∧ (rd rooms n).south = -1 ∧ (rd rooms n).east = -1 ∧
    (rd rooms n).west = -1 := by
  have key : static (rd rooms (n : Int)) = authored_static.getD n (static default) := by
    rw [rd_static, h]; simp
  have e : ∀ r : Room, r.north = (static r).north ∧ r.south = (static r).south ∧
      r.east = (static r).east ∧ r.west = (static r).west := fun _ => ⟨rfl, rfl, rfl, rfl⟩
  rw [(e _).1, (e _).2.1, (e _).2.2.1, (e _).2.2.2, key]
  interval_cases n <;> decide

theorem rd_congr_toNat {α : Type} [Inhabited α] (l : List α) (i j : Int)
    (h : i.toNat = j.toNat) : rd l i = rd l j := by
  unfold rd; rw [h]

theorem cave_wr_visited (l : List Room) (i j : Int) :
    (rd (wr l i { rd l i with visited := true }) j).cave = (rd l j).cave := by
  rw [rd_wr]
  split_ifs with h
  · rw [rd_congr_toNat l i j h.1]
  · rfl

theorem visited_wr_visited (l : List Room) (i j : Int) :
    (rd (wr l i { rd l i with visited := true }) j).visited = true ↔
      (i.toNat = j.toNat ∧ i.toNat < l.length) ∨ (rd l j).visited = true := by
  rw [rd_wr]
  split_ifs with h
  · exact ⟨fun _ => Or.inl h, fun _ => rfl⟩
  · exact ⟨fun h1 => Or.inr h1, fun h1 => h1.resolve_left h⟩

theorem next_room_valid (rooms : List Room) (hst : rooms.map static = authored_static)
    (cur : Int) (h0 : 0 ≤ cur) (h3 : cur ≤ 3)
    (hc : ∀ n : Nat, n < MAX_ROOMS → n ≠ 1 → (rd rooms n).cave = -1)
    (hc1 : (rd rooms 1).cave = -1 ∨ (rd rooms 1).cave = 3) (d : CStr) :
    next_room (rd rooms cur) d = -1 ∨
    (0 ≤ next_room (rd rooms cur) d ∧ next_room (rd rooms cur) d ≤ 2) ∨
    (next_room (rd rooms cur) d = 3 ∧ cur = 1 ∧ (rd rooms 1).cave = 3) := by
  obtain ⟨e0, e1, e2, e3⟩ := authored_exits rooms hst
  have c0 : (rd rooms 0).cave = -1 := by simpa using hc 0 (by decide) (by decide)
  have c2 : (rd rooms 2).cave = -1 := by simpa using hc 2 (by decide) (by decide)
  have c3 : (rd rooms 3).cave = -1 := by simpa using hc 3 (by decide) (by decide)
  have hcur : cur = 0 ∨ cur = 1 ∨ cur = 2 ∨ cur = 3 := by omega
  unfold next_room
  rcases hcur with rfl | rfl | rfl | rfl
  · split_ifs <;> simp [e0.1, e0.2.1, e0.2.2.1, e0.2.2.2, c0]
  · rcases hc1 with h | h <;> split_ifs <;> simp [e1.1, e1.2.1, e1.2.2.1, e1.2.2.2, h]
  · split_ifs <;> simp [e2.1, e2.2.1, e2.2.2.1, e2.2.2.2, c2]
  · split_ifs <;> simp [e3.1, e3.2.1, e3.2.2.1, e3.2.2.2, c3]

theorem world_enter (s : State) (n : Int) (hst : s.rooms.map static = authored_static)
    (hw : World s) (hn0 : 0 ≤ n) (hn3 : n ≤ 3) (h3 : n = 3 → (rd s.rooms 1).cave = 3) :
    World (print_room { s with current_room := n }).1 := by
  rw [print_room_fst]
  have hlen := rooms_length s.rooms hst
  constructor
  · exact hn0
  · exact hn3
  · intro m hm hm1
    show (rd (wr s.rooms n _) m).cave = -1
    rw [cave_wr_visited]; exact hw.caves m hm hm1
  · show (rd (wr s.rooms n _) 1).cave = -1 ∨ (rd (wr s.rooms n _) 1).cave = 3
    rw [cave_wr_visited]; exact hw.cave1
  · exact hw.items_shape
  · intro hn
    show (rd (wr s.rooms n _) 3).visited = true
    rw [visited_wr_visited]
    left
    have hn' : n = 3 := hn
    subst hn'
    exact ⟨rfl, by rw [hlen]; decide⟩
  · intro hv
    show (rd (wr s.rooms n _) 1).cave = 3
    rw [cave_wr_visited]
    have hv' : (rd (wr s.rooms n { rd s.rooms n with visited := true }) 3).visited = true := hv
    rw [visited_wr_visited] at hv'
    rcases hv' with ⟨h, _⟩ | h
    · exact h3 (by have : (3 : Int).toNat = 3 := rfl; omega)
    · exact hw.vis3 h
  · intro ht
    show (rd (wr s.rooms n _) 3).visited = true
    rw [visited_wr_visited]
    exact Or.inr (hw.took2 ht)
  · intro hc
    have hc' : (rd (wr s.rooms n { rd s.rooms n with visited := true }) 1).cave = 3 := hc
    rw [cave_wr_visited] at hc'
    exact hw.open01 hc'
  · exact hw.inv_len
  · exact hw.count_eq
  · exact hw.carried_nodup
  · exact hw.carried_iff

theorem count_taken_nonneg (l : List Item) : 0 ≤ count_taken l := by
  induction l with
  | nil => simp [count_taken]
  | cons x xs ih =>
    unfold count_taken
    split_ifs <;> omega

theorem count_taken_set (l : List Item) (i : Nat) (h : i < l.length)
    (ht : l[i].taken = false) :
    count_taken (l.set i (carry l[i])) = count_taken l + 1 := by
  induction l generalizing i with
  | nil => simp at h
  | cons x xs ih =>
    cases i with
    | zero =>
      have hx : x.taken = false := by simpa using ht
      simp [count_taken, carry, hx]
      omega
    | succ k =>
      have := ih k (by simpa using h) (by simpa using ht)
      simp only [List.set_cons_succ, List.getElem_cons_succ, count_taken, this]
      omega

theorem taken_set (l : List Item) (i : Nat) (h : i < l.length) (j : Int) :
    (rd (l.set i (carry l[i])) j).taken = true ↔ j.toNat = i ∨ (rd l j).taken = true := by
  have e : l.set i (carry l[i]) = wr l (i : Int) (carry l[i]) := by simp [wr]
  rw [e, rd_wr]
  simp only [Int.toNat_ofNat]
  split_ifs with h1
  · exact ⟨fun _ => Or.inl h1.1.symm, fun _ => rfl⟩
  · constructor
    · exact fun h2 => Or.inr h2
    · rintro (h2 | h2)
      · exact absurd ⟨h2.symm, h⟩ h1
      · exact h2

theorem world_take (s : State) (hinv : Inv s) (hw : World s) (i : Nat)
    (h : i < s.items.length) (hloc : s.items[i].location = s.current_room)
    (htk : s.items[i].takeable = true) (hroom : s.inventory_count < (MAX_INVENTORY : Int)) :
    World { s with items := s.items.set i (carry s.items[i]),
                   inventory := s.inventory.set s.inventory_count.toNat (i : Int),
                   inventory_count := s.inventory_count + 1 } := by
  have hnt : s.items[i].taken = false := by
    have h1 := hinv.tables.items_ok _ (List.getElem_mem h)
    have h2 : s.items[i].location ≠ -1 := by rw [hloc]; have := hw.cur_lo; omega
    cases ht : s.items[i].taken with
    | false => rfl
    | true => exact absurd (h1.1 ht) h2
  have hi20 : i < 20 := by rw [hinv.tables.items_len] at h; exact h
  have hrdi : rd s.items (i : Int) = s.items[i] := rd_natCast s.items i h
  have hcount0 : 0 ≤ s.inventory_count := by
    rw [hw.count_eq]; exact count_taken_nonneg _
  have hidx : s.inventory_count.toNat < s.inventory.length := by
    rw [hw.inv_len]; unfold MAX_INVENTORY at hroom ⊢; omega
  have htake : (s.inventory.set s.inventory_count.toNat (i : Int)).take
      (s.inventory_count + 1).toNat = s.inventory.take s.inventory_count.toNat ++ [(i : Int)] := by
    have : (s.inventory_count + 1).toNat = s.inventory_count.toNat + 1 := by omega
    rw [this, take_succ_set _ _ _ hidx]
  have hnotin : (i : Int) ∉ s.inventory.take s.inventory_count.toNat := by
    intro hin
    have := ((hw.carried_iff _).1 hin).2.2
    rw [hrdi, hnt] at this
    exact absurd this (by decide)
  obtain ⟨t0, t1, t2, hit⟩ := hw.items_shape
  have hf := items_of_facts t0 t1 t2
  have hi3 : i < 3 := by
    have := (items_of_rest t0 t1 t2 i hi20).1
    rw [← hit, hrdi] at this
    exact this htk
  have hcur0 := hw.cur_lo
  constructor
  · exact hw.cur_lo
  · exact hw.cur_hi
  · exact hw.caves
  · exact hw.cave1
  · show ∃ a b c, s.items.set i (carry s.items[i]) = items_of a b c
    rw [← hrdi]
    interval_cases i
    · exact ⟨true, t1, t2, by rw [hit]; exact hf.2.2.2.2.2.2.2.1⟩
    · exact ⟨t0, true, t2, by rw [hit]; exact hf.2.2.2.2.2.2.2.2.1⟩
    · exact ⟨t0, t1, true, by rw [hit]; exact hf.2.2.2.2.2.2.2.2.2⟩
  · exact hw.in3
  · exact hw.vis3
  · intro ht
    have ht' : (rd (s.items.set i (carry s.items[i])) 2).taken = true := ht
    rw [taken_set _ _ h] at ht'
    rcases ht' with h2 | h2
    · have hi2 : i = 2 := by have : (2 : Int).toNat = 2 := rfl; omega
      subst hi2
      have hl : (rd s.items 2).location = s.current_room := by
        have := hrdi; simp only [Nat.cast_ofNat] at this; rw [this]; exact hloc
      have h3 := hf.2.2.2.2.2.2.1
      rw [← hit, hl] at h3
      have hnt2 : t2 = false := by
        have := hf.2.2.2.1
        rw [← hit] at this
        have e := hrdi; simp only [Nat.cast_ofNat] at e
        rw [e, hnt] at this
        exact this.symm
      rw [hnt2] at h3
      exact hw.in3 (by simpa using h3)
    · exact hw.took2 h2
  · intro hc
    have := hw.open01 hc
    exact ⟨(taken_set _ _ h 0).2 (Or.inr this.1), (taken_set _ _ h 1).2 (Or.inr this.2)⟩
  · show (s.inventory.set _ _).length = MAX_INVENTORY
    rw [List.length_set]; exact hw.inv_len
  · show s.inventory_count + 1 = count_taken (s.items.set i (carry s.items[i]))
    rw [count_taken_set _ _ h hnt, hw.count_eq]; rfl
  · show ((s.inventory.set s.inventory_count.toNat (i : Int)).take
      (s.inventory_count + 1).toNat).Nodup
    rw [htake, List.nodup_append]
    refine ⟨hw.carried_nodup, List.nodup_singleton _, ?_⟩
    intro x hx hx2
    rw [List.mem_singleton] at hx2
    subst hx2
    exact hnotin hx
  · intro j
    show j ∈ (s.inventory.set s.inventory_count.toNat (i : Int)).take
      (s.inventory_count + 1).toNat ↔
      (0 ≤ j ∧ j < MAX_ITEMS ∧ (rd (s.items.set i (carry s.items[i])) j).taken = true)
    rw [htake, List.mem_append, List.mem_singleton, taken_set _ _ h, hw.carried_iff]
    unfold MAX_ITEMS
    constructor
    · rintro (⟨h1, h2, h3⟩ | h1)
      · exact ⟨h1, h2, Or.inr h3⟩
      · subst h1
        exact ⟨by omega, by omega, Or.inl (by simp)⟩
    · rintro ⟨h1, h2, h3 | h3⟩
      · right; omega
      · left; exact ⟨h1, h2, h3⟩

theorem visited_wr_cave (l : List Room) (i j : Int) (c : Int) :
    (rd (wr l i { rd l i with cave := c }) j).visited = (rd l j).visited := by
  rw [rd_wr]
  split_ifs with h
  · rw [rd_congr_toNat l i j h.1]
  · rfl

theorem cave_wr_cave (l : List Room) (i j : Int) (c : Int) :
    (rd (wr l i { rd l i with cave := c }) j).cave =
      if i.toNat = j.toNat ∧ i.toNat < l.length then c else (rd l j).cave := by
  rw [rd_wr]
  split_ifs <;> rfl

theorem world_congr (s t : State) (h1 : t.rooms = s.rooms) (h2 : t.items = s.items)
    (h3 : t.current_room = s.current_room) (h4 : t.inventory = s.inventory)
    (h5 : t.inventory_count = s.inventory_count) (hw : World s) : World t := by
  obtain ⟨r, i, c, v, n, g, w⟩ := s
  obtain ⟨r2, i2, c2, v2, n2, g2, w2⟩ := t
  dsimp only at h1 h2 h3 h4 h5
  subst h1 h2 h3 h4 h5
  exact ⟨hw.cur_lo, hw.cur_hi, hw.caves, hw.cave1, hw.items_shape, hw.in3, hw.vis3, hw.took2,
    hw.open01, hw.inv_len, hw.count_eq, hw.carried_nodup, hw.carried_iff⟩

theorem two_taken (s : State) (hw : World s) (hcount : count_jewels_taken s = 2)
    (h2 : (rd s.items 2).taken = false) :
    (rd s.items 0).taken = true ∧ (rd s.items 1).taken = true := by
  obtain ⟨t0, t1, t2, hit⟩ := hw.items_shape
  have hf := items_of_facts t0 t1 t2
  unfold count_jewels_taken at hcount
  rw [hit] at hcount h2 ⊢
  rw [hf.1] at hcount
  rw [hf.2.2.2.1] at h2
  rw [hf.2.1, hf.2.2.1]
  subst h2
  cases t0 <;> cases t1 <;> simp at hcount ⊢

theorem world_answer (s : State) (hinv : Inv s) (hw : World s) (hcur : s.current_room = 1)
    (hcount : count_jewels_taken s = 2) :
    World { s with rooms := wr s.rooms 1 { rd s.rooms 1 with cave := 3 },
                   waiting_for_riddle := false } := by
  have hlen := rooms_length s.rooms hinv.tables.rooms_static
  constructor
  · exact hw.cur_lo
  · exact hw.cur_hi
  · intro m hm hm1
    show (rd (wr s.rooms 1 _) m).cave = -1
    rw [cave_wr_cave, if_neg (by
      intro h
      have : (1 : Int).toNat = 1 := rfl
      have : ((m : Nat) : Int).toNat = m := Int.toNat_ofNat m
      omega)]
    exact hw.caves m hm hm1
  · right
    show (rd (wr s.rooms 1 _) 1).cave = 3
    rw [cave_wr_cave, if_pos ⟨rfl, by rw [hlen]; decide⟩]
  · exact hw.items_shape
  · intro h
    have h' : s.current_room = 3 := h
    omega
  · intro _
    show (rd (wr s.rooms 1 _) 1).cave = 3
    rw [cave_wr_cave, if_pos ⟨rfl, by rw [hlen]; decide⟩]
  · intro ht
    show (rd (wr s.rooms 1 _) 3).visited = true
    rw [visited_wr_cave]
    exact hw.took2 ht
  · intro _
    show (rd s.items 0).taken = true ∧ (rd s.items 1).taken = true
    rcases hw.cave1 with h | h
    · have hv : (rd s.rooms 3).visited ≠ true := by
        intro hv
        have := hw.vis3 hv
        omega
      have h2 : (rd s.items 2).taken = false := by
        cases ht : (rd s.items 2).taken with
        | false => rfl
        | true => exact absurd (hw.took2 ht) hv
      exact two_taken s hw hcount h2
    · exact hw.open01 h
  · exact hw.inv_len
  · exact hw.count_eq
  · exact hw.carried_nodup
  · exact hw.carried_iff

theorem with_current_room_self (s : State) : { s with current_room := s.current_room } = s := by
  cases s; rfl

theorem world_dispatch (s : State) (c a : CStr) (hinv : Inv s) (hw : World s) :
    World (dispatch s c a).1 := by
  have hst := hinv.tables.rooms_static
  rcases dispatch_shape s c a with h | h | h | ⟨d, hd, h⟩ | ⟨i, hi, h1, h2, h3, h⟩
  · rw [h]; exact hw
  · rw [h]; exact world_congr s _ rfl rfl rfl rfl rfl hw
  · rw [h, ← with_current_room_self s]
    exact world_enter s s.current_room hst hw hw.cur_lo hw.cur_hi
      (fun h3 => hw.vis3 (hw.in3 h3))
  · rw [h]
    rcases next_room_valid s.rooms hst s.current_room hw.cur_lo hw.cur_hi hw.caves hw.cave1 d
      with h1 | ⟨h1, h2⟩ | ⟨h1, _, h2⟩
    · exact absurd h1 hd
    · exact world_enter s _ hst hw h1 (by omega) (fun h3 => by omega)
    · exact world_enter s _ hst hw (by omega) (by omega) (fun _ => h2)
  · rw [h]; exact world_take s hinv hw i hi h1 h2 h3

theorem world_check_win (r : State × List Out) (hw : World r.1) : World (check_win r).1 := by
  rw [check_win_fst]
  split_ifs
  · exact world_congr r.1 _ rfl rfl rfl rfl rfl hw
  · exact hw

theorem world_process_input (s : State) (line : CStr) (hinv : Inv s) (hw : World s) :
    World (process_input s line).1 := by
  unfold process_input
  split_ifs with h1 h2
  · exact hw
  · apply world_check_win
    rw [handle_riddle_answer_fst]
    obtain ⟨hcur, hcount⟩ := hinv.awaiting h2
    dsimp only
    split_ifs
    · refine world_congr
        { s with rooms := wr s.rooms 1 { rd s.rooms 1 with cave := 3 },
                 waiting_for_riddle := false } _ ?_ rfl rfl rfl rfl
        (world_answer s hinv hw hcur hcount)
      show wr s.rooms s.current_room _ = wr s.rooms 1 _
      rw [hcur]
    · exact world_congr s _ rfl rfl rfl rfl rfl hw
  · exact world_check_win _ (world_dispatch s _ _ hinv hw)

theorem check_win_waiting (r : State × List Out) :
    (check_win r).1.waiting_for_riddle = r.1.waiting_for_riddle := by
  rw [check_win_fst]
  split_ifs <;> rfl

theorem live_enter (s : State) (n : Int) (hinv : Inv s) (hover : s.game_over = false)
    (hw : s.waiting_for_riddle = false)
    (hp : (print_room { s with current_room := n }).1.waiting_for_riddle = true) :
    win (print_room { s with current_room := n }).1 = false ∧
    (print_room { s with current_room := n }).1.game_over = false := by
  have hcur := (awaiting_print_room { s with current_room := n } hinv.tables hw hp).1
  rw [print_room_fst] at hcur ⊢
  have hn : n = 1 := hcur
  subst hn
  refine ⟨?_, hover⟩
  have hwin := hinv.nowin hover
  unfold win at hwin ⊢
  show ((rd (wr s.rooms 1 { rd s.rooms 1 with visited := true }) 3).visited &&
    (rd s.items 2).taken) = false
  have hv : (rd (wr s.rooms 1 { rd s.rooms 1 with visited := true }) 3).visited =
      (rd s.rooms 3).visited := by
    rw [rd_wr, if_neg (by intro h; exact absurd h.1 (by decide))]
  rw [hv]
  exact hwin

theorem live_process_input (s : State) (line : CStr) (hinv : Inv s)
    (hl : s.waiting_for_riddle = true → s.game_over = false)
    (hp : (process_input s line).1.waiting_for_riddle = true) :
    (process_input s line).1.game_over = false := by
  unfold process_input at hp ⊢
  split_ifs at hp ⊢ with h1 h2
  · exact hl hp
  · rw [check_win_waiting, handle_riddle_answer_fst] at hp
    exact absurd hp (by simp)
  · have hover : s.game_over = false := by simpa using h1
    have hw : s.waiting_for_riddle = false := by simpa using h2
    rw [check_win_waiting] at hp
    have key : ∀ X : State × List Out, win X.1 = false → X.1.game_over = false →
        (check_win X).1.game_over = false := by
      intro X h3 h4
      rw [check_win_fst, if_neg (by rw [h3]; decide)]
      exact h4
    rcases dispatch_shape s (to_lower (sscanf2 (read_input line)).1) (sscanf2 (read_input line)).2
      with h | h | h | ⟨d, _, h⟩ | ⟨i, hi, _, _, _, h⟩
    · rw [h, hw] at hp; exact absurd hp (by decide)
    · rw [h] at hp; exact absurd (hp.symm.trans hw) (by decide)
    · rw [h, ← with_current_room_self s] at hp
      have := live_enter s s.current_room hinv hover hw hp
      rw [with_current_room_self] at this
      rw [← h] at this
      exact key _ this.1 this.2
    · rw [h] at hp
      have := live_enter s _ hinv hover hw hp
      rw [← h] at this
      exact key _ this.1 this.2
    · rw [h] at hp; exact absurd (hp.symm.trans hw) (by decide)

theorem sound_process_input (s : State) (line : CStr) (h : Sound s) :
    Sound (process_input s line).1 :=
  ⟨inv_process_input s line h.inv, world_process_input s line h.inv h.world,
   live_process_input s line h.inv h.live⟩

set_option maxRecDepth 100000 in
theorem world_startup : World startup.1 := by
  refine ⟨by decide, by decide, by decide, by decide, ⟨false, false, false, startup_items⟩,
    by decide, by decide, by decide, by decide, by decide, by decide, by decide, ?_⟩
  intro j
  have h1 : startup.1.inventory.take startup.1.inventory_count.toNat = [] := by decide
  rw [h1]
  constructor
  · intro h; exact absurd h (List.not_mem_nil j)
  · rintro ⟨h0, h20, ht⟩
    exfalso
    have hj : j = ((j.toNat : Nat) : Int) := by omega
    have h20' : j.toNat < 20 := by unfold MAX_ITEMS at h20; omega
    have hall : ∀ i : Nat, i < 20 → (rd startup.1.items (i : Int)).taken = false := by decide
    rw [hj, hall _ h20'] at ht
    exact absurd ht (by decide)

theorem sound_startup : Sound startup.1 :=
  ⟨inv_startup, world_startup, by decide⟩

theorem sound_of_reachable (s : State) (h : Reachable s) : Sound s := by
  induction h with
  | start => exact sound_startup
  | step s line _ ih => exact sound_process_input s line ih

/-! ## C12 -/

theorem exits_as_authored (rooms : List Room) (h : rooms.map static = authored_static)
    (n : Int) :
    (rd rooms n).north = (rd (init_game globals).rooms n).north ∧
    (rd rooms n).south = (rd (init_game globals).rooms n).south ∧
    (rd rooms n).east = (rd (init_game globals).rooms n).east ∧
    (rd rooms n).west = (rd (init_game globals).rooms n).west := by
  have key : static (rd rooms n) = static (rd (init_game globals).rooms n) := by
    rw [rd_static, h, rd_static]
    rfl
  have h1 := congrArg Room.north key
  have h2 := congrArg Room.south key
  have h3 := congrArg Room.east key
  have h4 := congrArg Room.west key
  exact ⟨h1, h2, h3, h4⟩

theorem check_win_rooms (r : State × List Out) : (check_win r).1.rooms = r.1.rooms := by
  rw [check_win_fst]
  split_ifs <;> rfl

theorem dispatch_cave (s : State) (c a : CStr) (j : Int) :
    (rd (dispatch s c a).1.rooms j).cave = (rd s.rooms j).cave := by
  rcases dispatch_shape s c a with h | h | h | ⟨d, _, h⟩ | ⟨i, hi, _, _, _, h⟩
  · rw [h]
  · rw [h]
  · rw [h, print_room_fst]; exact cave_wr_visited _ _ _
  · rw [h, print_room_fst]; exact cave_wr_visited _ _ _
  · rw [h]

theorem cave1_step (s : State) (line : CStr) (h : Sound s) :
    (rd (process_input s line).1.rooms 1).cave = 3 ↔
      ((rd s.rooms 1).cave = 3 ∨
        (s.game_over = false ∧ s.waiting_for_riddle = true ∧
          read_input line = "43".toList)) := by
  cases hover : s.game_over with
  | true =>
    have hp : process_input s line = (s, []) := by simp [process_input, hover]
    rw [hp]
    simp
  | false =>
    cases hw : s.waiting_for_riddle with
    | true =>
      obtain ⟨hcur, _⟩ := h.inv.awaiting hw
      have hans := (room1_answer s.rooms h.inv.tables.rooms_static).1
      have hlen := rooms_length s.rooms h.inv.tables.rooms_static
      rw [process_input_awaiting s line hover hw (h.inv.nowin hover), handle_riddle_answer_fst]
      dsimp only
      have hcut : cut_at ['\n'] (read_input line) = read_input line := by
        unfold read_input; exact cut_at_cut_at _
      have hcond : cut_at ['\n'] (read_input line) = (rd s.rooms s.current_room).answer ↔
          read_input line = "43".toList := by
        rw [hcut, hcur, hans]
      by_cases hm : read_input line = "43".toList
      · rw [if_pos (hcond.2 hm), hcur, cave_wr_cave, if_pos ⟨rfl, by rw [hlen]; decide⟩]
        exact iff_of_true rfl (Or.inr ⟨rfl, rfl, hm⟩)
      · rw [if_neg (fun h => hm (hcond.1 h))]
        exact ⟨Or.inl, fun h => h.elim id (fun h => absurd h.2.2 hm)⟩
    | false =>
      unfold process_input
      simp only [hover, hw, Bool.false_eq_true, if_false]
      rw [check_win_rooms, dispatch_cave]
      simp

/-- C12. In every state reachable from startup: the current room is one of the rooms 0..3;
the room array has its `MAX_ROOMS` entries; for every room index the north, south, east
and west exits, and the cave exit of every room but room 1, are the authored ones, and
every exit is -1 or a room index 0..3; the cave exit of room 1 is -1 or 3. It is -1 at
startup, and after any call of `process_input` it is 3 if and only if it was 3 before or
the call read the answer `43` while an answer was awaited in a session not terminated:
absent until the correct answer, room 3 for ever after. -/
theorem room_graph_invariant (s : State) (hr : Reachable s) :
    (0 ≤ s.current_room ∧ s.current_room ≤ 3) ∧
    s.rooms.length = MAX_ROOMS ∧
    (∀ n : Nat, n < MAX_ROOMS →
      ((rd s.rooms n).north = (rd (init_game globals).rooms n).north ∧
        (rd s.rooms n).south = (rd (init_game globals).rooms n).south ∧
        (rd s.rooms n).east = (rd (init_game globals).rooms n).east ∧
        (rd s.rooms n).west = (rd (init_game globals).rooms n).west ∧
        (n ≠ 1 → (rd s.rooms n).cave = (rd (init_game globals).rooms n).cave)) ∧
      ((rd s.rooms n).north = -1 ∨ (0 ≤ (rd s.rooms n).north ∧ (rd s.rooms n).north ≤ 3)) ∧
      ((rd s.rooms n).south = -1 ∨ (0 ≤ (rd s.rooms n).south ∧ (rd s.rooms n).south ≤ 3)) ∧
      ((rd s.rooms n).east = -1 ∨ (0 ≤ (rd s.rooms n).east ∧ (rd s.rooms n).east ≤ 3)) ∧
      ((rd s.rooms n).west = -1 ∨ (0 ≤ (rd s.rooms n).west ∧ (rd s.rooms n).west ≤ 3)) ∧
      ((rd s.rooms n).cave = -1 ∨ (0 ≤ (rd s.rooms n).cave ∧ (rd s.rooms n).cave ≤ 3))) ∧
    ((rd s.rooms 1).cave = -1 ∨ (rd s.rooms 1).cave = 3) ∧
    (rd startup.1.rooms 1).cave = -1 ∧
    (∀ line, (rd (process_input s line).1.rooms 1).cave = 3 ↔
      ((rd s.rooms 1).cave = 3 ∨
        (s.game_over = false ∧ s.waiting_for_riddle = true ∧
          read_input line = "43".toList))) := by
  have hs := sound_of_reachable s hr
  have hst := hs.inv.tables.rooms_static
  refine ⟨⟨hs.world.cur_lo, hs.world.cur_hi⟩, rooms_length s.rooms hst, ?_, hs.world.cave1,
    by decide, fun line => cave1_step s line hs⟩
  intro n hn
  obtain ⟨a1, a2, a3, a4⟩ := exits_as_authored s.rooms hst n
  have hall : ∀ m : Nat, m < 10 →
      (rd (init_game globals).rooms (m : Int)).cave = -1 ∧
      ((rd (init_game globals).rooms (m : Int)).north = -1 ∨
        (0 ≤ (rd (init_game globals).rooms (m : Int)).north ∧
          (rd (init_game globals).rooms (m : Int)).north ≤ 3)) ∧
      ((rd (init_game globals).rooms (m : Int)).south = -1 ∨
        (0 ≤ (rd (init_game globals).rooms (m : Int)).south ∧
          (rd (init_game globals).rooms (m : Int)).south ≤ 3)) ∧
      ((rd (init_game globals).rooms (m : Int)).east = -1 ∨
        (0 ≤ (rd (init_game globals).rooms (m : Int)).east ∧
          (rd (init_game globals).rooms (m : Int)).east ≤ 3)) ∧
      ((rd (init_game globals).rooms (m : Int)).west = -1 ∨
        (0 ≤ (rd (init_game globals).rooms (m : Int)).west ∧
          (rd (init_game globals).rooms (m : Int)).west ≤ 3)) := by
    decide
  obtain ⟨b0, b1, b2, b3, b4⟩ := hall n hn
  refine ⟨⟨a1, a2, a3, a4, fun hn1 => ?_⟩, ?_, ?_, ?_, ?_, ?_⟩
  · rw [b0]; exact hs.world.caves n hn hn1
  · rw [a1]; exact b1
  · rw [a2]; exact b2
  · rw [a3]; exact b3
  · rw [a4]; exact b4
  · by_cases hn1 : n = 1
    · subst hn1
      rcases hs.world.cave1 with h | h
      · left; simpa using h
      · right
        have : (rd s.rooms ((1 : Nat) : Int)).cave = 3 := by simpa using h
        omega
    · left; exact hs.world.caves n hn hn1

theorem room_graph_invariant_witness :
    Reachable (after 8) ∧ (0 ≤ (after 8).current_room ∧ (after 8).current_room ≤ 3) ∧
    ((rd (after 8).rooms 1).cave = -1 ∨ (rd (after 8).rooms 1).cave = 3) :=
  ⟨reachable_after 8, (room_graph_invariant (after 8) (reachable_after 8)).1,
   (room_graph_invariant (after 8) (reachable_after 8)).2.2.2.1⟩

/-! ## C13 -/

theorem exists_cons_of_length_succ {α : Type} (l : List α) (n : Nat) (h : l.length = n + 1) :
    ∃ a t, l = a :: t ∧ t.length = n := by
  cases l with
  | nil => simp at h
  | cons a t => exact ⟨a, t, rfl, by simpa using h⟩

theorem list_of_length_10 {α : Type} (l : List α) (h : l.length = 10) :
    ∃ a0 a1 a2 a3 a4 a5 a6 a7 a8 a9, l = [a0, a1, a2, a3, a4, a5, a6, a7, a8, a9] := by
  obtain ⟨a0, l0, rfl, h0⟩ := exists_cons_of_length_succ l 9 h
  obtain ⟨a1, l1, rfl, h1⟩ := exists_cons_of_length_succ l0 8 h0
  obtain ⟨a2, l2, rfl, h2⟩ := exists_cons_of_length_succ l1 7 h1
  obtain ⟨a3, l3, rfl, h3⟩ := exists_cons_of_length_succ l2 6 h2
  obtain ⟨a4, l4, rfl, h4⟩ := exists_cons_of_length_succ l3 5 h3
  obtain ⟨a5, l5, rfl, h5⟩ := exists_cons_of_length_succ l4 4 h4
  obtain ⟨a6, l6, rfl, h6⟩ := exists_cons_of_length_succ l5 3 h5
  obtain ⟨a7, l7, rfl, h7⟩ := exists_cons_of_length_succ l6 2 h6
  obtain ⟨a8, l8, rfl, h8⟩ := exists_cons_of_length_succ l7 1 h7
  obtain ⟨a9, l9, rfl, h9⟩ := exists_cons_of_length_succ l8 0 h8
  rw [List.length_eq_zero] at h9
  subst h9
  exact ⟨a0, a1, a2, a3, a4, a5, a6, a7, a8, a9, rfl⟩

theorem init_rooms_exits (rooms : List Room) (h : rooms.length = MAX_ROOMS) :
    (init_rooms rooms).map (fun r => (r.north, r.south, r.east, r.west, r.cave, r.visited)) =
      [(1, -1, 2, -1, -1, false), (-1, 0, -1, -1, -1, false), (-1, -1, -1, 0, -1, false),
       (-1, 1, -1, -1, -1, false)] ++ List.replicate 6 (-1, -1, -1, -1, -1, false) := by
  obtain ⟨a0, a1, a2, a3, a4, a5, a6, a7, a8, a9, rfl⟩ := list_of_length_10 rooms h
  rfl

theorem init_rooms_riddles (rooms : List Room) (h : rooms.length = MAX_ROOMS) :
    (init_rooms rooms).map (fun r => (r.riddle, r.answer, r.answer_correct, r.npc_text)) =
      [(false, [], false, []), (true, "43".toList, false, []), (false, [], false, []),
       (false, [], false, [])] ++ List.replicate 6 (false, [], false, []) := by
  obtain ⟨a0, a1, a2, a3, a4, a5, a6, a7, a8, a9, rfl⟩ := list_of_length_10 rooms h
  rfl

theorem init_items_places (items : List Item) (h : items.length = MAX_ITEMS) :
    (init_items items).map (fun it => (it.location, it.takeable, it.taken)) =
      [(0, true, false), (2, true, false), (3, true, false)] ++
        List.replicate 17 (-2, false, false) := by
  obtain ⟨a0, l0, rfl, h0⟩ := exists_cons_of_length_succ items 19 h
  obtain ⟨a1, l1, rfl, h1⟩ := exists_cons_of_length_succ l0 18 h0
  obtain ⟨a2, l2, rfl, h2⟩ := exists_cons_of_length_succ l1 17 h1
  have hl : (l2.map reset_item).map (fun it => (it.location, it.takeable, it.taken)) =
      List.replicate 17 (-2, false, false) := by
    rw [List.map_map, ← h2]
    exact List.map_const' l2 (-2, false, false)
  exact congrArg (fun t => (0, true, false) :: (2, true, false) :: (3, true, false) :: t) hl

/-- C13 (counterexample). `init_game` run on the state the walk-through ends in (arrays
at their declared sizes) leaves the session terminated, the current room 3 and the
inventory count 3: the session state is not fresh. -/
theorem init_game_keeps_session_state :
    (after 10).rooms.length = MAX_ROOMS ∧ (after 10).items.length = MAX_ITEMS ∧
    (init_game (after 10)).game_over = true ∧ (init_game (after 10)).current_room = 3 ∧
    (init_game (after 10)).inventory_count = 3 ∧
    ¬ ((init_game (after 10)).current_room = 0 ∧ (init_game (after 10)).inventory_count = 0 ∧
        (init_game (after 10)).game_over = false ∧
        (init_game (after 10)).waiting_for_riddle = false) := by
  decide

/-- C13 (amended). For every prior state whose room and item arrays have their declared
sizes, after `init_game` the world data is the authored one: every exit as authored (room
1's cave exit absent), every `visited` flag false, the riddle data as authored, every
item at its authored location and not taken. The session state is not written by
`init_game`: current room, inventory, inventory count, terminated flag and awaiting flag
keep their prior values; they are 0, 0, false and false in the initial globals of the
program, so the session is fresh after the one `init_game` of a program run. -/
theorem init_game_resets_world (s : State)
    (hr : s.rooms.length = MAX_ROOMS) (hi : s.items.length = MAX_ITEMS) :
    (init_game s).rooms.map (fun r => (r.north, r.south, r.east, r.west, r.cave, r.visited)) =
      [(1, -1, 2, -1, -1, false), (-1, 0, -1, -1, -1, false), (-1, -1, -1, 0, -1, false),
       (-1, 1, -1, -1, -1, false)] ++ List.replicate 6 (-1, -1, -1, -1, -1, false) ∧
    (init_game s).rooms.map (fun r => (r.riddle, r.answer, r.answer_correct, r.npc_text)) =
      [(false, [], false, []), (true, "43".toList, false, []), (false, [], false, []),
       (false, [], false, [])] ++ List.replicate 6 (false, [], false, []) ∧
    (init_game s).items.map (fun it => (it.location, it.takeable, it.taken)) =
      [(0, true, false), (2, true, false), (3, true, false)] ++
        List.replicate 17 (-2, false, false) ∧
    ((init_game s).current_room = s.current_room ∧ (init_game s).inventory = s.inventory ∧
      (init_game s).inventory_count = s.inventory_count ∧
      (init_game s).game_over = s.game_over ∧
      (init_game s).waiting_for_riddle = s.waiting_for_riddle) ∧
    ((init_game globals).current_room = 0 ∧ (init_game globals).inventory_count = 0 ∧
      (init_game globals).game_over = false ∧
      (init_game globals).waiting_for_riddle = false) :=
  ⟨init_rooms_exits s.rooms hr, init_rooms_riddles s.rooms hr, init_items_places s.items hi,
   ⟨rfl, rfl, rfl, rfl, rfl⟩, ⟨rfl, rfl, rfl, rfl⟩⟩

theorem init_game_resets_world_witness :
    (after 10).rooms.length = MAX_ROOMS ∧ (after 10).items.length = MAX_ITEMS ∧
    (init_game (after 10)).rooms.map
        (fun r => (r.north, r.south, r.east, r.west, r.cave, r.visited)) =
      [(1, -1, 2, -1, -1, false), (-1, 0, -1, -1, -1, false), (-1, -1, -1, 0, -1, false),
       (-1, 1, -1, -1, -1, false)] ++ List.replicate 6 (-1, -1, -1, -1, -1, false) ∧
    (init_game (after 10)).rooms.map
        (fun r => (r.riddle, r.answer, r.answer_correct, r.npc_text)) =
      [(false, [], false, []), (true, "43".toList, false, []), (false, [], false, []),
       (false, [], false, [])] ++ List.replicate 6 (false, [], false, []) ∧
    (init_game (after 10)).items.map (fun it => (it.location, it.takeable, it.taken)) =
      [(0, true, false), (2, true, false), (3, true, false)] ++
        List.replicate 17 (-2, false, false) ∧
    ((init_game (after 10)).current_room = (after 10).current_room ∧
      (init_game (after 10)).inventory = (after 10).inventory ∧
      (init_game (after 10)).inventory_count = (after 10).inventory_count ∧
      (init_game (after 10)).game_over = (after 10).game_over ∧
      (init_game (after 10)).waiting_for_riddle = (after 10).waiting_for_riddle) ∧
    ((init_game globals).current_room = 0 ∧ (init_game globals).inventory_count = 0 ∧
      (init_game globals).game_over = false ∧
      (init_game globals).waiting_for_riddle = false) :=
  ⟨by decide, by decide, init_game_resets_world (after 10) (by decide) (by decide)⟩

/-! ## C14 -/

theorem dropWhile_append_all {α : Type} (p : α → Bool) (l1 l2 : List α)
    (h : ∀ c ∈ l1, p c = true) : (l1 ++ l2).dropWhile p = l2.dropWhile p := by
  induction l1 with
  | nil => rfl
  | cons x xs ih =>
    have hx : p x = true := h x (List.mem_cons_self _ _)
    simp only [List.cons_append, List.dropWhile_cons, hx, if_true]
    exact ih (fun c hc => h c (List.mem_cons_of_mem _ hc))

theorem takeWhile_append_all {α : Type} (p : α → Bool) (l1 l2 : List α)
    (h : ∀ c ∈ l1, p c = true) : (l1 ++ l2).takeWhile p = l1 ++ l2.takeWhile p := by
  induction l1 with
  | nil => rfl
  | cons x xs ih =>
    have hx : p x = true := h x (List.mem_cons_self _ _)
    simp only [List.cons_append, List.takeWhile_cons, hx, if_true]
    rw [ih (fun c hc => h c (List.mem_cons_of_mem _ hc))]

theorem takeWhile_head_false {α : Type} (p : α → Bool) (l : List α)
    (h : ∀ c, l.head? = some c → p c = false) : l.takeWhile p = [] := by
  cases l with
  | nil => rfl
  | cons x xs => simp [List.takeWhile_cons, h x rfl]

theorem dropWhile_head_false {α : Type} (p : α → Bool) (l : List α)
    (h : ∀ c, l.head? = some c → p c = false) : l.dropWhile p = l := by
  cases l with
  | nil => rfl
  | cons x xs => simp [List.dropWhile_cons, h x rfl]

theorem scan_s_token (w : Nat) (lead v r : CStr)
    (hl : ∀ c ∈ lead, isspace c = true)
    (hv : v ≠ []) (hvn : ∀ c ∈ v, isspace c = false) (hvl : v.length ≤ w)
    (hr : ∀ c, r.head? = some c → isspace c = true) :
    scan_s w (lead ++ (v ++ r)) = some (v, r) := by
  have h1 : (lead ++ (v ++ r)).dropWhile isspace = v ++ r := by
    rw [dropWhile_append_all _ _ _ hl]
    apply dropWhile_head_false
    intro c hc
    cases v with
    | nil => exact absurd rfl hv
    | cons x xs =>
      simp only [List.cons_append, List.head?_cons, Option.some.injEq] at hc
      subst hc
      exact hvn _ (List.mem_cons_self _ _)
  have h2 : (v ++ r).takeWhile (fun c => !isspace c) = v := by
    rw [takeWhile_append_all _ _ _ (fun c hc => by simp [hvn c hc])]
    rw [takeWhile_head_false _ _ (fun c hc => by simp [hr c hc])]
    simp
  have h3 : v ++ r ≠ [] := by
    cases v with
    | nil => exact absurd rfl hv
    | cons x xs => simp
  unfold scan_s
  simp only [h1, h2, h3, if_false, List.take_of_length_le hvl, List.drop_left]

theorem not_terminator_of_not_space (c : Char) (h : isspace c = false) :
    (!(['\n', '\r'].contains c)) = true := by
  unfold isspace at h
  simp only [Bool.or_eq_false_iff, beq_eq_false_iff_ne, ne_eq] at h
  simp [h.1.1.1.2, h.2]

theorem not_terminator_of_blank (c : Char) (h : c ≠ '\n' ∧ c ≠ '\r') :
    (!(['\n', '\r'].contains c)) = true := by
  simp [h.1, h.2]

theorem head_cut_at (t : CStr) (h : ∀ c, t.head? = some c → isspace c = true) :
    ∀ c, (cut_at ['\n', '\r'] t).head? = some c → isspace c = true := by
  intro c hc
  unfold cut_at at hc
  cases t with
  | nil => simp at hc
  | cons x xs =>
    rw [List.takeWhile_cons] at hc
    split_ifs at hc
    · simp only [List.head?_cons, Option.some.injEq] at hc
      subst hc
      exact h x rfl
    · simp at hc

theorem sscanf2_two_tokens (lead v gap a tail : CStr)
    (hlead : ∀ c ∈ lead, isspace c = true ∧ c ≠ '\n' ∧ c ≠ '\r')
    (hv : v ≠ []) (hvn : ∀ c ∈ v, isspace c = false) (hvl : v.length ≤ 49)
    (hgap : gap ≠ []) (hgapn : ∀ c ∈ gap, isspace c = true ∧ c ≠ '\n' ∧ c ≠ '\r')
    (ha : a ≠ []) (han : ∀ c ∈ a, isspace c = false) (hal : a.length ≤ 49)
    (htail : ∀ c, tail.head? = some c → isspace c = true)
    (hlen : (lead ++ (v ++ (gap ++ (a ++ tail)))).length ≤ 99) :
    sscanf2 (read_input (lead ++ (v ++ (gap ++ (a ++ tail))))) = (v, a) := by
  have hread : read_input (lead ++ (v ++ (gap ++ (a ++ tail)))) =
      lead ++ (v ++ (gap ++ (a ++ cut_at ['\n', '\r'] tail))) := by
    unfold read_input
    rw [List.take_of_length_le (by simpa [MAX_INPUT] using hlen)]
    unfold cut_at
    rw [takeWhile_append_all _ _ _ (fun c hc => not_terminator_of_blank c (hlead c hc).2),
      takeWhile_append_all _ _ _ (fun c hc => not_terminator_of_not_space c (hvn c hc)),
      takeWhile_append_all _ _ _ (fun c hc => not_terminator_of_blank c (hgapn c hc).2),
      takeWhile_append_all _ _ _ (fun c hc => not_terminator_of_not_space c (han c hc))]
  have hgaphead : ∀ c, (gap ++ (a ++ cut_at ['\n', '\r'] tail)).head? = some c →
      isspace c = true := by
    intro c hc
    cases gap with
    | nil => exact absurd rfl hgap
    | cons x xs =>
      simp only [List.cons_append, List.head?_cons, Option.some.injEq] at hc
      subst hc
      exact (hgapn _ (List.mem_cons_self _ _)).1
  have hdrop : (gap ++ (a ++ cut_at ['\n', '\r'] tail)).dropWhile isspace =
      [] ++ (a ++ cut_at ['\n', '\r'] tail) := by
    rw [dropWhile_append_all _ _ _ (fun c hc => (hgapn c hc).1)]
    apply dropWhile_head_false
    intro c hc
    cases a with
    | nil => exact absurd rfl ha
    | cons x xs =>
      simp only [List.cons_append, List.head?_cons, Option.some.injEq] at hc
      subst hc
      exact han _ (List.mem_cons_self _ _)
  rw [hread]
  unfold sscanf2
  rw [scan_s_token 49 lead v _ (fun c hc => (hlead c hc).1) hv hvn hvl hgaphead]
  simp only []
  rw [hdrop, scan_s_token 49 [] a _ (fun c hc => absurd hc (List.not_mem_nil c)) ha han hal
    (head_cut_at tail htail)]

/-- C14. In every state that awaits no riddle answer, for every line of at most 99
characters made of: leading white space without line terminator (possibly none), a first
token `v` of 1 to 49 non-space characters, white space without line terminator, a second
token `a` of 1 to 49 non-space characters, and a tail that is empty or starts with a
white-space character (further tokens, or a line terminator and whatever follows it):
`process_input` gives the same state and the same output as on the line `v a`. -/
theorem extra_tokens_ignored (s : State) (lead v gap a tail : CStr)
    (hw : s.waiting_for_riddle = false)
    (hlead : ∀ c ∈ lead, isspace c = true ∧ c ≠ '\n' ∧ c ≠ '\r')
    (hv : v ≠ []) (hvn : ∀ c ∈ v, isspace c = false) (hvl : v.length ≤ 49)
    (hgap : gap ≠ []) (hgapn : ∀ c ∈ gap, isspace c = true ∧ c ≠ '\n' ∧ c ≠ '\r')
    (ha : a ≠ []) (han : ∀ c ∈ a, isspace c = false) (hal : a.length ≤ 49)
    (htail : ∀ c, tail.head? = some c → isspace c = true)
    (hlen : (lead ++ v ++ gap ++ a ++ tail).length ≤ 99) :
    process_input s (lead ++ v ++ gap ++ a ++ tail) = process_input s (v ++ ' ' :: a) := by
  have h1 : sscanf2 (read_input (lead ++ v ++ gap ++ a ++ tail)) = (v, a) := by
    simp only [List.append_assoc] at hlen ⊢
    exact sscanf2_two_tokens lead v gap a tail hlead hv hvn hvl hgap hgapn ha han hal htail hlen
  have h2 : sscanf2 (read_input (v ++ ' ' :: a)) = (v, a) := by
    have := sscanf2_two_tokens [] v [' '] a []
      (fun c hc => absurd hc (List.not_mem_nil c)) hv hvn hvl (by simp)
      (fun c hc => by
        rw [List.mem_singleton] at hc
        subst hc
        decide)
      ha han hal (fun c hc => by simp at hc)
      (by simp only [List.nil_append, List.append_nil, List.length_append, List.length_cons,
            List.length_nil]; omega)
    simpa using this
  unfold process_input
  simp only [hw, Bool.false_eq_true, if_false, h1, h2]

theorem extra_tokens_ignored_witness :
    startup.1.waiting_for_riddle = false ∧
    process_input startup.1
        ("  \t".toList ++ "GO".toList ++ " \t ".toList ++ "north".toList ++
          " quickly now\r\ntake jewel".toList) =
      process_input startup.1 ("GO".toList ++ ' ' :: "north".toList) :=
  ⟨by decide,
   extra_tokens_ignored startup.1 "  \t".toList "GO".toList " \t ".toList "north".toList
     " quickly now\r\ntake jewel".toList (by decide) (by decide) (by decide) (by decide)
     (by decide) (by decide) (by decide) (by decide) (by decide) (by decide) (by decide)
     (by decide)⟩

/-! ## C15 -/

theorem read_input_take (line : CStr) :
    read_input (line.take (MAX_INPUT - 1)) = read_input line := by
  unfold read_input
  rw [List.take_take, Nat.min_self]

/-- C15. For every state and every input line (so also for one longer than the
`MAX_INPUT - 1 = 99` characters the buffer holds), `process_input` gives the same state
and the same output as on the first 99 characters of the line, whether a command or a
riddle answer is read. -/
theorem input_truncated (s : State) (line : CStr) :
    MAX_INPUT - 1 = 99 ∧
    process_input s line = process_input s (line.take (MAX_INPUT - 1)) := by
  refine ⟨rfl, ?_⟩
  unfold process_input
  rw [read_input_take]

/-! ## C16 -/

theorem go_alias (s : State) (d1 d2 : CStr)
    (h : ∀ room : Room, next_room room (to_lower d1) = next_room room (to_lower d2)) :
    go s d1 = go s d2 := by
  unfold go
  simp only [h]

/-- C16. In every state that awaits no riddle answer, the lines `go n`, `go s`, `go e`,
`go w` give the same state and output as `go north`, `go south`, `go east`, `go west`,
and `i` gives the same state and output as `inventory`. -/
theorem aliases (s : State) (hw : s.waiting_for_riddle = false) :
    process_input s "go n".toList = process_input s "go north".toList ∧
    process_input s "go s".toList = process_input s "go south".toList ∧
    process_input s "go e".toList = process_input s "go east".toList ∧
    process_input s "go w".toList = process_input s "go west".toList ∧
    process_input s "i".toList = process_input s "inventory".toList := by
  have hgo : ∀ d : CStr, dispatch s "go".toList d = go s d := by
    intro d
    unfold dispatch
    rw [if_neg (by decide), if_neg (by decide), if_pos rfl]
  have hi : dispatch s "i".toList [] = dispatch s "inventory".toList [] := by
    unfold dispatch
    rw [if_neg (by decide), if_neg (by decide), if_neg (by decide), if_neg (by decide),
      if_pos (Or.inr rfl)]
    rw [if_neg (by decide), if_neg (by decide), if_neg (by decide), if_neg (by decide),
      if_pos (Or.inl rfl)]
  have key : ∀ (l : CStr) (c a : CStr), sscanf2 (read_input l) = (c, a) →
      process_input s l = if s.game_over then (s, []) else check_win (dispatch s (to_lower c) a) := by
    intro l c a h
    unfold process_input
    simp only [hw, Bool.false_eq_true, if_false, h]
  refine ⟨?_, ?_, ?_, ?_, ?_⟩
  · rw [key "go n".toList "go".toList "n".toList (by decide),
      key "go north".toList "go".toList "north".toList (by decide)]
    rw [show to_lower "go".toList = "go".toList by decide, hgo, hgo,
      go_alias s "n".toList "north".toList (fun _ => rfl)]
  · rw [key "go s".toList "go".toList "s".toList (by decide),
      key "go south".toList "go".toList "south".toList (by decide)]
    rw [show to_lower "go".toList = "go".toList by decide, hgo, hgo,
      go_alias s "s".toList "south".toList (fun _ => rfl)]
  · rw [key "go e".toList "go".toList "e".toList (by decide),
      key "go east".toList "go".toList "east".toList (by decide)]
    rw [show to_lower "go".toList = "go".toList by decide, hgo, hgo,
      go_alias s "e".toList "east".toList (fun _ => rfl)]
  · rw [key "go w".toList "go".toList "w".toList (by decide),
      key "go west".toList "go".toList "west".toList (by decide)]
    rw [show to_lower "go".toList = "go".toList by decide, hgo, hgo,
      go_alias s "w".toList "west".toList (fun _ => rfl)]
  · rw [key "i".toList "i".toList [] (by decide),
      key "inventory".toList "inventory".toList [] (by decide)]
    rw [show to_lower "i".toList = "i".toList by decide,
      show to_lower "inventory".toList = "inventory".toList by decide, hi]

theorem aliases_witness :
    startup.1.waiting_for_riddle = false ∧
    process_input startup.1 "go n".toList = process_input startup.1 "go north".toList ∧
    process_input startup.1 "go s".toList = process_input startup.1 "go south".toList ∧
    process_input startup.1 "go e".toList = process_input startup.1 "go east".toList ∧
    process_input startup.1 "go w".toList = process_input startup.1 "go west".toList ∧
    process_input startup.1 "i".toList = process_input startup.1 "inventory".toList :=
  ⟨by decide, aliases startup.1 (by decide)⟩

/-! ## C17 -/

/-- C17. In the world `init_game` builds at program start: the north exit of room 0 is
room 1; room 1 has the one exit south, to room 0 (north, east, west and cave are -1);
and exits are not symmetric: room 3 has an exit (south) to room 1 while none of the five
exits of room 1 leads to room 3. -/
theorem authored_graph :
    (rd (init_game globals).rooms 0).north = 1 ∧
    ((rd (init_game globals).rooms 1).south = 0 ∧
      (rd (init_game globals).rooms 1).north = -1 ∧
      (rd (init_game globals).rooms 1).east = -1 ∧
      (rd (init_game globals).rooms 1).west = -1 ∧
      (rd (init_game globals).rooms 1).cave = -1) ∧
    ((rd (init_game globals).rooms 3).south = 1 ∧
      (rd (init_game globals).rooms 1).north ≠ 3 ∧
      (rd (init_game globals).rooms 1).south ≠ 3 ∧
      (rd (init_game globals).rooms 1).east ≠ 3 ∧
      (rd (init_game globals).rooms 1).west ≠ 3 ∧
      (rd (init_game globals).rooms 1).cave ≠ 3) ∧
    (∃ a b : Int, (rd (init_game globals).rooms a).south = b ∧
      (rd (init_game globals).rooms b).north ≠ a ∧
      (rd (init_game globals).rooms b).south ≠ a ∧
      (rd (init_game globals).rooms b).east ≠ a ∧
      (rd (init_game globals).rooms b).west ≠ a ∧
      (rd (init_game globals).rooms b).cave ≠ a) :=
  ⟨by decide, by decide, by decide, ⟨3, 1, by decide⟩⟩

/-! ## C18 -/

/-- C18. In every state reachable from startup: if room 3 has been visited or is the
current room, then items 0 and 1 are taken and the cave exit of room 1 is open (3); and
whenever the win test holds (room 3 visited and item 2 taken) the items 0, 1 and 2 are all
taken, three items in all. -/
theorem hidden_room_needs_riddle (s : State) (hr : Reachable s) :
    (((rd s.rooms 3).visited = true ∨ s.current_room = 3) →
      (rd s.items 0).taken = true ∧ (rd s.items 1).taken = true ∧ (rd s.rooms 1).cave = 3) ∧
    (((rd s.rooms 3).visited = true ∧ (rd s.items 2).taken = true) →
      (rd s.items 0).taken = true ∧ (rd s.items 1).taken = true ∧
      (rd s.items 2).taken = true ∧ count_jewels_taken s = 3) := by
  have hw := (sound_of_reachable s hr).world
  have key : (rd s.rooms 3).visited = true →
      (rd s.items 0).taken = true ∧ (rd s.items 1).taken = true ∧ (rd s.rooms 1).cave = 3 := by
    intro hv
    have hc := hw.vis3 hv
    exact ⟨(hw.open01 hc).1, (hw.open01 hc).2, hc⟩
  refine ⟨fun h => h.elim key (fun h3 => key (hw.in3 h3)), fun h => ?_⟩
  obtain ⟨h0, h1, _⟩ := key h.1
  refine ⟨h0, h1, h.2, ?_⟩
  obtain ⟨t0, t1, t2, hit⟩ := hw.items_shape
  have hf := items_of_facts t0 t1 t2
  have h2 := h.2
  unfold count_jewels_taken
  rw [hit] at h0 h1 h2 ⊢
  rw [hf.2.1] at h0
  rw [hf.2.2.1] at h1
  rw [hf.2.2.2.1] at h2
  rw [hf.1, h0, h1, h2]
  rfl

theorem hidden_room_needs_riddle_witness :
    Reachable (after 9) ∧ (after 9).current_room = 3 ∧
    ((((rd (after 9).rooms 3).visited = true ∨ (after 9).current_room = 3) →
      (rd (after 9).items 0).taken = true ∧ (rd (after 9).items 1).taken = true ∧
      (rd (after 9).rooms 1).cave = 3) ∧
    (((rd (after 9).rooms 3).visited = true ∧ (rd (after 9).items 2).taken = true) →
      (rd (after 9).items 0).taken = true ∧ (rd (after 9).items 1).taken = true ∧
      (rd (after 9).items 2).taken = true ∧ count_jewels_taken (after 9) = 3)) :=
  ⟨reachable_after 9, by decide, hidden_room_needs_riddle (after 9) (reachable_after 9)⟩

/-! ## C19 -/

theorem count_le_three (s : State) (hw : World s) :
    0 ≤ s.inventory_count ∧ s.inventory_count ≤ 3 := by
  obtain ⟨t0, t1, t2, hit⟩ := hw.items_shape
  have hf := (items_of_facts t0 t1 t2).1
  have hc := hw.count_eq
  unfold count_jewels_taken at hc
  rw [hit, hf] at hc
  rw [hc]
  cases t0 <;> cases t1 <;> cases t2 <;> decide

theorem take_item_never_full (s : State) (hw : World s) (name : CStr) :
    (take_item s name).2 ≠ [pr "Your inventory is full!\n" []] := by
  have hc := (count_le_three s hw).2
  rcases find_from_cases s.current_room (to_lower name) s.items 0 with ⟨h1, _⟩ | ⟨j, hj, h1, _, _⟩
  · have hf : find_item_in_room s (to_lower name) = -1 := h1
    unfold take_item
    simp only [hf, if_true]
    decide
  · have hf : find_item_in_room s (to_lower name) = (j : Int) := by
      unfold find_item_in_room; simpa using h1
    rw [take_item_found s name j hj hf]
    split_ifs with h3 h4
    · show [pr "You can't take that.\n" []] ≠ [pr "Your inventory is full!\n" []]
      decide
    · unfold MAX_INVENTORY at h4; omega
    · intro h
      have h5 : ["You take the %s.\n"] = ["Your inventory is full!\n"] :=
        congrArg (fun l => l.map Out.fmt) h
      exact absurd h5 (by decide)

/-- C19. In every state reachable from startup: `inventory_count` is the number of taken
items (`count_jewels_taken`); it lies between 0 and 3, below `MAX_INVENTORY`, the size of
the inventory array, so the slot `take_item` writes is inside the array; the first
`inventory_count` inventory entries are as many pairwise distinct entries, and an index
is among them exactly when it is a valid item index whose item has location -1 (carried);
and `take_item` never answers "Your inventory is full!". -/
theorem inventory_consistent (s : State) (hr : Reachable s) :
    s.inventory_count = count_jewels_taken s ∧
    (0 ≤ s.inventory_count ∧ s.inventory_count ≤ 3 ∧ (3 : Int) < MAX_INVENTORY) ∧
    s.inventory.length = MAX_INVENTORY ∧
    (s.inventory.take s.inventory_count.toNat).length = s.inventory_count.toNat ∧
    (s.inventory.take s.inventory_count.toNat).Nodup ∧
    (∀ j : Int, j ∈ s.inventory.take s.inventory_count.toNat ↔
      (0 ≤ j ∧ j < MAX_ITEMS ∧ (rd s.items j).location = -1)) ∧
    (∀ name, (take_item s name).2 ≠ [pr "Your inventory is full!\n" []]) := by
  have hs := sound_of_reachable s hr
  have hw := hs.world
  have hc := count_le_three s hw
  refine ⟨hw.count_eq, ⟨hc.1, hc.2, by decide⟩, hw.inv_len, ?_, hw.carried_nodup, ?_,
    take_item_never_full s hw⟩
  · rw [List.length_take, hw.inv_len]
    unfold MAX_INVENTORY
    omega
  · intro j
    rw [hw.carried_iff]
    constructor
    · rintro ⟨h0, h1, h2⟩
      refine ⟨h0, h1, ?_⟩
      have hj : j = ((j.toNat : Nat) : Int) := by omega
      have hlt : j.toNat < s.items.length := by
        rw [hs.inv.tables.items_len]; unfold MAX_ITEMS at h1 ⊢; omega
      have hmem : rd s.items j ∈ s.items := by
        rw [hj, rd_natCast s.items _ hlt]; exact List.getElem_mem _
      exact (hs.inv.tables.items_ok _ hmem).1 h2
    · rintro ⟨h0, h1, h2⟩
      refine ⟨h0, h1, ?_⟩
      have hj : j = ((j.toNat : Nat) : Int) := by omega
      have hlt : j.toNat < s.items.length := by
        rw [hs.inv.tables.items_len]; unfold MAX_ITEMS at h1 ⊢; omega
      have hmem : rd s.items j ∈ s.items := by
        rw [hj, rd_natCast s.items _ hlt]; exact List.getElem_mem _
      exact (hs.inv.tables.items_ok _ hmem).2 h2

theorem inventory_consistent_witness :
    Reachable (after 5) ∧ (after 5).inventory_count = 2 ∧
    (after 5).inventory_count = count_jewels_taken (after 5) ∧
    ((after 5).inventory.take (after 5).inventory_count.toNat).Nodup :=
  ⟨reachable_after 5, by decide, (inventory_consistent (after 5) (reachable_after 5)).1,
   (inventory_consistent (after 5) (reachable_after 5)).2.2.2.2.1⟩

/-! ## C20 -/

/-- C20. In every state reachable from startup in which the awaiting-answer flag is set:
the session is not terminated, the current room is room 1 and exactly two items are
taken; the answer `handle_riddle_answer` reads from the current room is `43`, not an empty
string, so for every answer line it reports success exactly when the line, cut at its
first newline, is `43`. -/
theorem pending_riddle_in_room1 (s : State) (hr : Reachable s)
    (hw : s.waiting_for_riddle = true) :
    s.game_over = false ∧ s.current_room = 1 ∧ count_jewels_taken s = 2 ∧
    (rd s.rooms s.current_room).answer = "43".toList ∧
    (rd s.rooms s.current_room).answer ≠ [] ∧
    (∀ a : CStr, riddle_success ∈ (handle_riddle_answer s a).2 ↔
      cut_at ['\n'] a = "43".toList) := by
  have hs := sound_of_reachable s hr
  obtain ⟨hcur, hcount⟩ := hs.inv.awaiting hw
  have hans : (rd s.rooms s.current_room).answer = "43".toList := by
    rw [hcur]; exact (room1_answer s.rooms hs.inv.tables.rooms_static).1
  refine ⟨hs.live hw, hcur, hcount, hans, by rw [hans]; decide, fun a => ?_⟩
  unfold handle_riddle_answer
  dsimp only
  rw [hans]
  split_ifs with h
  · exact iff_of_true (by simp) h
  · refine iff_of_false ?_ h
    intro hm
    rw [List.mem_singleton] at hm
    exact absurd hm (by decide)

theorem pending_riddle_in_room1_witness :
    Reachable (after 7) ∧ (after 7).waiting_for_riddle = true ∧
    (after 7).game_over = false ∧ (after 7).current_room = 1 ∧
    count_jewels_taken (after 7) = 2 ∧
    (rd (after 7).rooms (after 7).current_room).answer = "43".toList ∧
    (rd (after 7).rooms (after 7).current_room).answer ≠ [] ∧
    (∀ a : CStr, riddle_success ∈ (handle_riddle_answer (after 7) a).2 ↔
      cut_at ['\n'] a = "43".toList) :=
  ⟨reachable_after 7, by decide,
   pending_riddle_in_room1 (after 7) (reachable_after 7) (by decide)⟩

end Adventure
